import Mathlib

/-!
Verification development for the llm-video-batch repository.

This file gives a shallow embedding of the state-tracking core of the
repository (the image uploader retry wrapper, the SQLite persistence layer,
the Duomi video-generation polling loop, the OpenRouter/Gemini prompt client
and the image-processing pipeline of parse_image_and_generate_json.py) and
proves or refutes the specification claims about it.

External effects (HTTP responses, exceptions raised by the requests library,
the file system, CSV rows) are modelled as explicit inputs; wall-clock
timing fields (upload_time, response_time, processing_time) are omitted from
the embedded result records, and time.sleep calls are recorded as explicit
trace events.
-/

namespace LVB

/-! ### A small model of Python/JSON values

JSON documents parsed by `response.json()` are modelled by `JVal`.
Python `None` and JSON `null` are identified (`JVal.null`), exactly as in
CPython, where `json.loads` parses `null` to `None`. -/

/-- JSON / Python value as produced by `response.json()`. -/
inductive JVal where
  | null
  | bool (b : Bool)
  | num (n : Int)
  | str (s : String)
  | arr (elems : List JVal)
  | obj (fields : List (String × JVal))
deriving Repr

/-- Python truthiness of a JSON value (`if x:`). -/
def JVal.truthy : JVal → Bool
  | .null => false
  | .bool b => b
  | .num n => n != 0
  | .str s => s != ""
  | .arr es => !es.isEmpty
  | .obj fs => !fs.isEmpty

/-- Python `x == n` between a JSON value and an integer literal:
true only when the value is that number (no coercions across types). -/
def JVal.eqInt : JVal → Int → Bool
  | .num m, n => m == n
  | _, _ => false

/-- Python `d.get(k)` on a parsed JSON value: `AttributeError` when the value
is not a dict, the value (or `None` for a missing key) otherwise. -/
def JVal.pyGet : JVal → String → Except String JVal
  | .obj fs, k => .ok (((fs.find? (fun p => p.1 == k)).map Prod.snd).getD .null)
  | _, _ => .error "AttributeError: object has no attribute get"

/-- Python `d.get(k, default)` on a parsed JSON value. -/
def JVal.pyGetD (j : JVal) (k : String) (d : JVal) : Except String JVal :=
  match j with
  | .obj fs => .ok (((fs.find? (fun p => p.1 == k)).map Prod.snd).getD d)
  | _ => .error "AttributeError: object has no attribute get"

/-- Python `d[k]` on a parsed JSON value: `KeyError` for a missing key,
`TypeError` when the value is not a dict. -/
def JVal.pyIndex : JVal → String → Except String JVal
  | .obj fs, k =>
    match (fs.find? (fun p => p.1 == k)).map Prod.snd with
    | some v => .ok v
    | none => .error ("KeyError: " ++ k)
  | _, _ => .error "TypeError: value is not subscriptable"

/-- Rendering of a value inside a Python f-string (`f"{x}"`).  Container
values are rendered opaquely; only scalar renderings are relied on. -/
def JVal.pyStr : JVal → String
  | .null => "None"
  | .bool b => if b then "True" else "False"
  | .num n => toString n
  | .str s => s
  | .arr _ => "[...]"
  | .obj _ => "{...}"

/-- Whether a value is a (non-None) string. -/
def JVal.isStr : JVal → Bool
  | .str _ => true
  | _ => false

/-- Python f-string rendering of an `Optional[str]` (`None` renders as
the text "None"). -/
def pyStrOfOpt : Option String → String
  | none => "None"
  | some s => s

/-! ### Path and string helpers (pathlib / str semantics used by the
scripts), implemented by structural recursion on character lists so that
concrete instances evaluate inside the kernel -/

/-- Split a character list at a separator character. -/
def splitOnChar (sep : Char) : List Char → List (List Char)
  | [] => [[]]
  | c :: cs =>
    let r := splitOnChar sep cs
    if c = sep then [] :: r
    else
      match r with
      | [] => [[c]]
      | h :: t => (c :: h) :: t

/-- ASCII lowercasing of a string (`str.lower()` on the ASCII extensions
the scripts compare against). -/
def toLowerStr (s : String) : String :=
  String.mk (s.toList.map Char.toLower)

/-- Whether `needle` occurs as a contiguous substring of `hay`
(Python `needle in hay`). -/
def containsSub (needle : List Char) : List Char → Bool
  | [] => needle.isEmpty
  | c :: t => needle.isPrefixOf (c :: t) || containsSub needle t

/-- `pathlib.PurePath(p).name`: the final path component. -/
def pyPathName (p : String) : String :=
  String.mk ((((splitOnChar '/' p.toList)).filter (fun s => !s.isEmpty)).getLastD [])

/-- Index of the last `.` in a character list, if any. -/
def lastDotIdx (cs : List Char) : Option Nat :=
  match cs.reverse.findIdx? (fun c => c = '.') with
  | none => none
  | some j => some (cs.length - 1 - j)

/-- `pathlib.PurePath(p).suffix`: the extension of the final component,
empty unless the last dot sits strictly inside the name
(cpython: `0 < i < len(name) - 1`). -/
def pySuffix (p : String) : String :=
  let name := pyPathName p
  let cs := name.toList
  match lastDotIdx cs with
  | none => ""
  | some i => if 0 < i ∧ i < cs.length - 1 then String.mk (cs.drop i) else ""

namespace ImageUploader

/-! ### src/scripts/image_uploader.py -/

/-- The `UploadResult` dataclass, restricted to the fields the claims are
about.  `url` is a Python value (`JVal.null` models `None`); timing and
metadata fields (`response_data`, `upload_time`, `file_size`, `image_id`,
`thumbnail_url`, `file_path`, `width`, `height`, `tags`, `is_private`)
are omitted. -/
structure UploadResult where
  success : Bool
  url : JVal := .null
  error : Option String := none
deriving Repr

/-- Valid image extensions checked by `BaseImageUploader._is_valid_image`. -/
def validExtensions : List String :=
  [".png", ".jpg", ".jpeg", ".gif", ".bmp", ".webp", ".svg", ".ico", ".tiff"]

/-- `BaseImageUploader._is_valid_image`. -/
def isValidImage (imagePath : String) : Bool :=
  validExtensions.contains (toLowerStr (pySuffix imagePath))

/-- Uploader configuration (`BaseImageUploader.__init__` defaults). -/
structure UploaderCfg where
  maxRetries : Nat := 3
  retryDelay : Rat := 1
deriving Repr

/-- Trace events of `upload_image`: a call to `_upload_single` with the
attempt index, or a `time.sleep` of the given number of seconds. -/
inductive UpEv where
  | call (i : Nat)
  | sleep (d : Rat)
deriving Repr, DecidableEq

/-- The final failure message of `upload_image`
(`f"Upload failed after {self.max_retries} attempts. Last error: {last_error}"`). -/
def failAfterMsg (maxRetries : Nat) (lastError : Option String) : String :=
  "Upload failed after " ++ toString maxRetries ++
    " attempts. Last error: " ++ pyStrOfOpt lastError

/-- The retry loop of `BaseImageUploader.upload_image`.  `attempts i` is the
outcome of the `i`-th `_upload_single` call: a returned `UploadResult` or a
raised exception message.  `i` is the current attempt index, `fuel` the
number of attempts left, `lastError` the running `last_error` variable. -/
def uploadLoop (cfg : UploaderCfg) (attempts : Nat → Except String UploadResult) :
    Nat → Nat → Option String → UploadResult × List UpEv
  | _, 0, lastError =>
    ({ success := false, url := .null,
       error := some (failAfterMsg cfg.maxRetries lastError) }, [])
  | i, fuel + 1, _ =>
    match attempts i with
    | .ok r =>
      if r.success then (r, [.call i])
      else
        let rest := uploadLoop cfg attempts (i + 1) fuel r.error
        (rest.1, .call i :: (if fuel = 0 then [] else [.sleep cfg.retryDelay]) ++ rest.2)
    | .error e =>
      let rest := uploadLoop cfg attempts (i + 1) fuel (some e)
      (rest.1, .call i :: (if fuel = 0 then [] else [.sleep cfg.retryDelay]) ++ rest.2)

/-- `BaseImageUploader.upload_image`.  `fsExists` models
`os.path.exists(image_path)`. -/
def uploadImage (cfg : UploaderCfg) (fsExists : Bool) (imagePath : String)
    (attempts : Nat → Except String UploadResult) : UploadResult × List UpEv :=
  if !fsExists then
    ({ success := false, url := .null,
       error := some ("Image file not found: " ++ imagePath) }, [])
  else if !(isValidImage imagePath) then
    ({ success := false, url := .null,
       error := some ("Invalid image file type: " ++ imagePath) }, [])
  else
    uploadLoop cfg attempts 0 cfg.maxRetries none

/-- Whether an `_upload_single` outcome counts as a successful attempt
(a returned result with `success=True`; an exception never does). -/
def succeedsAttempt (a : Except String UploadResult) : Bool :=
  match a with
  | .ok r => r.success
  | .error _ => false

/-- The value the running `last_error` variable takes after an
unsuccessful attempt: the returned result's error, or the exception
text. -/
def attemptError (a : Except String UploadResult) : Option String :=
  match a with
  | .ok r => r.error
  | .error e => some e

/-- The `last_error` value after the attempts `i, …, i+fuel-1` have all
been consumed. -/
def lastErrAfter (attempts : Nat → Except String UploadResult) :
    Nat → Nat → Option String → Option String
  | _, 0, lastError => lastError
  | i, fuel + 1, _ => lastErrAfter attempts (i + 1) fuel (attemptError (attempts i))

/-- The expected trace of a run whose `fuel` attempts all fail: calls at
`i, i+1, …` with exactly one sleep of the retry delay between
consecutive calls (and none after the last). -/
def allFailTrace (delay : Rat) : Nat → Nat → List UpEv
  | _, 0 => []
  | i, 1 => [.call i]
  | i, fuel + 2 => .call i :: .sleep delay :: allFailTrace delay (i + 1) (fuel + 1)

/-- The expected trace when the attempt at offset `k` is the first
success: calls at `i, …, i+k` with exactly one sleep of the retry delay
between consecutive calls. -/
def succTrace (delay : Rat) : Nat → Nat → List UpEv
  | i, 0 => [.call i]
  | i, k + 1 => .call i :: .sleep delay :: succTrace delay (i + 1) k

/-- Outcome of the HTTP POST of `FreeImageHostUploader._upload_single`:
a timeout, a requests exception, any other exception, or a response whose
body either fails to parse (`none`) or parses to a JSON value. -/
inductive FIHHttp where
  | timeout
  | reqExc (e : String)
  | otherExc (e : String)
  | resp (text : String) (json : Option JVal)
deriving Repr

/-- The `["image"]["url"]` lookup of the FreeImageHost success branch. -/
def fihSuccessUrl (j : JVal) : Except String JVal :=
  match j.pyIndex "image" with
  | .error e => .error e
  | .ok img => img.pyIndex "url"

/-- The response-handling part of `FreeImageHostUploader._upload_single`
on a parsed JSON body; a `.error` is an exception escaping to the generic
`except Exception` handler. -/
def fihHandle (j : JVal) : Except String UploadResult :=
  match j.pyGet "status_code", j.pyGet "success" with
  | .error e, _ => .error e
  | .ok _, .error e => .error e
  | .ok sc, .ok su =>
    if sc.eqInt 200 && su.truthy then
      match fihSuccessUrl j with
      | .error e => .error e
      | .ok u => .ok { success := true, url := u, error := none }
    else
      match j.pyGetD "error" (.obj []) with
      | .error e => .error e
      | .ok ei =>
        match ei.pyGetD "message" (.str "Unknown error"),
            ei.pyGetD "code" (.str "N/A") with
        | .error e, _ => .error e
        | .ok _, .error e => .error e
        | .ok msg, .ok code =>
          .ok { success := false, url := .null,
                error := some ("Upload failed: " ++ msg.pyStr ++
                  " (Code: " ++ code.pyStr ++ ")") }

/-- `FreeImageHostUploader._upload_single` as a function of the HTTP
outcome. -/
def fihUploadSingle (o : FIHHttp) : UploadResult :=
  match o with
  | .timeout => { success := false, url := .null, error := some "Upload timeout (30s)" }
  | .reqExc e => { success := false, url := .null, error := some ("Network error: " ++ e) }
  | .otherExc e => { success := false, url := .null, error := some ("Unexpected error: " ++ e) }
  | .resp text none =>
    { success := false, url := .null, error := some ("Invalid JSON response: " ++ text) }
  | .resp _ (some j) =>
    match fihHandle j with
    | .ok r => r
    | .error e => { success := false, url := .null, error := some ("Unexpected error: " ++ e) }

/-- Outcome of the HTTP POST of `ImageKitUploader._upload_single`. -/
inductive IKHttp where
  | timeout
  | reqExc (e : String)
  | otherExc (e : String)
  | resp (statusCode : Nat) (text : String) (json : Option JVal)
deriving Repr

/-- The response-handling part of `ImageKitUploader._upload_single` on a
parsed JSON body; metadata fields of the 200 branch are omitted (only
`url`, `success` and `error` are modelled). -/
def ikHandle (statusCode : Nat) (j : JVal) : Except String UploadResult :=
  if statusCode = 200 then
    match j.pyGet "url" with
    | .error e => .error e
    | .ok u => .ok { success := true, url := u, error := none }
  else if statusCode = 202 then
    .ok { success := true, url := .str "Processing queued",
          error := some "File is being processed. Check back later." }
  else
    match j.pyGetD "message" (.str "Unknown error") with
    | .error e => .error e
    | .ok m =>
      .ok { success := false, url := .null,
            error := some ("Upload failed (" ++ toString statusCode ++ "): " ++ m.pyStr) }

/-- `ImageKitUploader._upload_single` as a function of the HTTP outcome. -/
def ikUploadSingle (o : IKHttp) : UploadResult :=
  match o with
  | .timeout => { success := false, url := .null, error := some "Upload timeout (60s)" }
  | .reqExc e => { success := false, url := .null, error := some ("Network error: " ++ e) }
  | .otherExc e => { success := false, url := .null, error := some ("Unexpected error: " ++ e) }
  | .resp _ text none =>
    { success := false, url := .null, error := some ("Invalid JSON response: " ++ text) }
  | .resp code _ (some j) =>
    match ikHandle code j with
    | .ok r => r
    | .error e => { success := false, url := .null, error := some ("Unexpected error: " ++ e) }

end ImageUploader

namespace DB

/-! ### src/scripts/database_manager.py and the scripts writing to SQLite

The `images` and `videos` tables are modelled as lists of rows; only the
columns the claims are about are carried.  `insert_image_record` /
`insert_video_record` list their columns explicitly in the INSERT
statement, so for those columns SQLite applies the bound value (NULL when
the Python field is `None`) and never the schema default; `status` and
`original_filename` (resp. `image_id`) are NOT NULL, so binding NULL there
raises `sqlite3.IntegrityError` and inserts nothing. -/

/-- A row of the `images` table (modelled columns only). -/
structure ImagesRow where
  id : Nat
  originalFilename : String
  status : String
  errorMessage : Option String := none
  descriptiveName : Option String := none
  uploadUrl : Option String := none
  uploadedFilename : Option String := none
deriving Repr, DecidableEq

/-- The `images` table. -/
structure ImagesTable where
  rows : List ImagesRow := []
  nextId : Nat := 1
deriving Repr, DecidableEq

/-- Schema default of `images.status` (`status TEXT NOT NULL DEFAULT 'pending'`). -/
def imagesStatusDefault : String := "pending"

/-- A generic INSERT into `images` that may or may not list the `status`
column: when `status` is not listed (`none`), SQLite fills in the schema
default `'pending'`. -/
def insertImagesRaw (t : ImagesTable) (originalFilename : String)
    (status : Option String) (descriptiveName : Option String)
    (uploadUrl : Option String) (uploadedFilename : Option String) :
    ImagesTable × Nat :=
  ({ rows := t.rows ++
      [{ id := t.nextId, originalFilename := originalFilename,
         status := status.getD imagesStatusDefault,
         descriptiveName := descriptiveName, uploadUrl := uploadUrl,
         uploadedFilename := uploadedFilename }],
     nextId := t.nextId + 1 }, t.nextId)

/-- The `ImageRecord` dataclass fields bound by
`DatabaseManager.insert_image_record` (modelled columns only; all fields
are `Optional` in the dataclass). -/
structure ImageRecord where
  originalFilename : Option String := none
  status : Option String := none
  errorMessage : Option String := none
  descriptiveName : Option String := none
  uploadUrl : Option String := none
  uploadedFilename : Option String := none
deriving Repr, DecidableEq

/-- `DatabaseManager.insert_image_record`: the INSERT lists
`original_filename` and `status` explicitly, so a `None` value is bound as
NULL and violates the NOT NULL constraint (`sqlite3.IntegrityError`),
leaving the table unchanged; on success the row carries exactly the bound
status. -/
def insertImageRecord (t : ImagesTable) (rec : ImageRecord) :
    ImagesTable × Except String Nat :=
  match rec.originalFilename with
  | none => (t, .error "IntegrityError: NOT NULL constraint failed: images.original_filename")
  | some fn =>
    match rec.status with
    | none => (t, .error "IntegrityError: NOT NULL constraint failed: images.status")
    | some st =>
      ({ rows := t.rows ++
          [{ id := t.nextId, originalFilename := fn, status := st,
             errorMessage := rec.errorMessage,
             descriptiveName := rec.descriptiveName,
             uploadUrl := rec.uploadUrl,
             uploadedFilename := rec.uploadedFilename }],
         nextId := t.nextId + 1 }, .ok t.nextId)

/-- `DatabaseManager.update_image_status`: stores the caller-supplied
status string verbatim on the matching row (no validation). -/
def updateImageStatus (t : ImagesTable) (imageId : Nat) (status : String)
    (errorMessage : Option String) : ImagesTable :=
  { t with rows := t.rows.map (fun r =>
      if r.id = imageId then { r with status := status, errorMessage := errorMessage } else r) }

/-- `get_or_create_legacy_image_id` of convert_used_json_to_db.py: looks up
the placeholder row and, when absent, inserts one with status `'legacy'`. -/
def getOrCreateLegacyImageId (t : ImagesTable) : ImagesTable × Nat :=
  match t.rows.find? (fun r =>
      r.descriptiveName = some "Legacy System Migration" ∧
      r.originalFilename = "legacy_placeholder") with
  | some r => (t, r.id)
  | none =>
    insertImagesRaw t "legacy_placeholder" (some "legacy")
      (some "Legacy System Migration") none none

/-- A CSV row of logs/image_uploading.csv as read by `csv.DictReader`
(modelled columns; a `none` field is a column missing from the file). -/
structure CsvRow where
  originalFilename : Option String := none
  status : Option String := none
deriving Repr, DecidableEq

/-- The status written by `migrate_existing_data` for one CSV row:
`row.get('status', 'unknown')` — the CSV value is copied verbatim, with
`'unknown'` substituted when the column is absent. -/
def migrateCsvRowStatus (row : CsvRow) : String :=
  row.status.getD "unknown"

/-- A row of the `videos` table (modelled columns only). -/
structure VideosRow where
  id : Nat
  imageId : Nat
  status : String
  errorMessage : Option String := none
deriving Repr, DecidableEq

/-- The `videos` table. -/
structure VideosTable where
  rows : List VideosRow := []
  nextId : Nat := 1
deriving Repr, DecidableEq

/-- Schema default of `videos.status` (`status TEXT NOT NULL DEFAULT 'pending'`). -/
def videosStatusDefault : String := "pending"

/-- The `VideoRecord` dataclass fields bound by
`DatabaseManager.insert_video_record` (modelled columns only). -/
structure VideoRecord where
  imageId : Option Nat := none
  status : Option String := none
  errorMessage : Option String := none
deriving Repr, DecidableEq

/-- `DatabaseManager.insert_video_record`: the INSERT lists `image_id` and
`status` explicitly; binding NULL to either violates NOT NULL and raises,
leaving the table unchanged. -/
def insertVideoRecord (t : VideosTable) (rec : VideoRecord) :
    VideosTable × Except String Nat :=
  match rec.imageId with
  | none => (t, .error "IntegrityError: NOT NULL constraint failed: videos.image_id")
  | some imgId =>
    match rec.status with
    | none => (t, .error "IntegrityError: NOT NULL constraint failed: videos.status")
    | some st =>
      ({ rows := t.rows ++
          [{ id := t.nextId, imageId := imgId, status := st,
             errorMessage := rec.errorMessage }],
         nextId := t.nextId + 1 }, .ok t.nextId)

/-- The status `load_video_generation_logs` (convert_used_json_to_db.py)
derives from a JSONL log entry:
`'completed' if log_entry.get('status') == 'success' else 'failed'`. -/
def videoStatusFromLog (logStatus : Option String) : String :=
  if logStatus = some "success" then "completed" else "failed"

/-- The status `create_video_record` (convert_used_json_to_db.py) writes:
the default `'pending'`, replaced by the log-derived status when the video
name is found in the generation logs. -/
def convertUsedVideoStatus (logEntry : Option (Option String)) : String :=
  match logEntry with
  | none => "pending"
  | some logStatus => videoStatusFromLog logStatus

/-- Every site in the codebase that writes a status value into the
`videos` table, with the data the written value depends on:
the schema default (an INSERT not listing `status`), the two
`convert_json_to_db.create_video_record` branches (both `'pending'`),
the two `convert_used_json_to_db.create_video_record` branches (status
derived from the generation logs), and the `insert_video_record` call of
temp_process_generated_images.py (`status="pending"`).
`DatabaseManager.update_video_status` takes its status as an argument and
has no caller in the codebase, so it contributes no written value. -/
inductive VideoStatusWrite where
  | schemaDefault
  | convertJsonUpdate
  | convertJsonInsert
  | convertUsedUpdate (logEntry : Option (Option String))
  | convertUsedInsert (logEntry : Option (Option String))
  | tempProcessInsert
deriving Repr

/-- The status string a given write site stores in `videos.status`. -/
def writtenVideoStatus : VideoStatusWrite → String
  | .schemaDefault => videosStatusDefault
  | .convertJsonUpdate => "pending"
  | .convertJsonInsert => "pending"
  | .convertUsedUpdate logEntry => convertUsedVideoStatus logEntry
  | .convertUsedInsert logEntry => convertUsedVideoStatus logEntry
  | .tempProcessInsert => "pending"

/-- The video status vocabulary named by the spec. -/
def videoStatusSet : List String := ["pending", "generating", "completed", "failed"]

/-- The image status vocabulary named by the spec. -/
def imageStatusSet : List String :=
  ["pending", "uploading", "success", "failed", "completed"]

/-- `update_image_status` of temp_process_generated_images.py writes its
caller's status; its call sites pass only these literals. -/
def tempProcessImageStatuses : List String := ["failed", "uploaded"]

/-- Every site in the codebase that writes a status value into the
`images` table, with the data the written value depends on: the schema
default; the UPDATE/INSERT of `find_or_create_image_record` in
convert_json_to_db.py and convert_used_json_to_db.py (all `'success'`);
the legacy placeholder INSERT (`'legacy'`); the two `'completed'` UPDATEs
of fix_failed_images_test.py; `update_image_record` calls of
fix_image_uploading.py (`'success'`/`'failed'`); the
`update_image_status` calls of temp_process_generated_images.py
(`'success'`/`'failed'`, plus the `'uploaded'` post-upload write); the
`'pending'` INSERT of temp_generate_images_from_db.py; and
`migrate_existing_data`, which copies `row.get('status', 'unknown')` from
the CSV.  `DatabaseManager.update_image_status` and
`insert_image_record` take their status from the caller; their only
caller with a literal is `migrate_existing_data` (covered). -/
inductive ImageStatusWrite where
  | schemaDefault
  | convertJsonUpdate
  | convertJsonInsert
  | convertUsedUpdate
  | convertUsedInsertLogs
  | convertUsedInsertBasic
  | legacyPlaceholder
  | fixFailedUpdateDb
  | fixFailedUpdateFile
  | fixImageUploadingUpdate (ok : Bool)
  | fixImageUploadingReupload (ok : Bool)
  | tempProcessUpdate (ok : Bool)
  | tempProcessUploaded
  | tempGenerateInsert
  | migrateCsv (row : CsvRow)
deriving Repr

/-- The status string a given write site stores in `images.status`. -/
def writtenImageStatus : ImageStatusWrite → String
  | .schemaDefault => imagesStatusDefault
  | .convertJsonUpdate => "success"
  | .convertJsonInsert => "success"
  | .convertUsedUpdate => "success"
  | .convertUsedInsertLogs => "success"
  | .convertUsedInsertBasic => "success"
  | .legacyPlaceholder => "legacy"
  | .fixFailedUpdateDb => "completed"
  | .fixFailedUpdateFile => "completed"
  | .fixImageUploadingUpdate ok => if ok then "success" else "failed"
  | .fixImageUploadingReupload ok => if ok then "success" else "failed"
  | .tempProcessUpdate ok => if ok then "success" else "failed"
  | .tempProcessUploaded => "uploaded"
  | .tempGenerateInsert => "pending"
  | .migrateCsv row => migrateCsvRowStatus row

/-- The image status values the codebase's literal write sites actually
use: the spec's five-value set minus `'uploading'` (which no site ever
writes), extended by the extra literals `'legacy'` and `'uploaded'`
found in the code. -/
def imageStatusSetAmended : List String :=
  ["pending", "success", "failed", "completed", "legacy", "uploaded"]

end DB

namespace Duomi

/-! ### src/scripts/generate_video_duomi.py, the polling loop of `main`

One iteration of the `while True:` polling loop observes one `PollStep`:
an exception raised while GETting/parsing the status (caught by the
`except` clauses, which set failure and `break` without moving the image),
a response with `code != 0` (sleep and continue), or a parsed
`task_status` together with the video URL extracted by the
`.get`-with-default chain (`None` when absent) and, for the download that
a `succeed` status with a URL triggers, whether the download raises. -/

/-- One observed polling iteration. -/
inductive PollStep where
  | exc (e : String)
  | badCode (msg : String)
  | task (taskStatus : String) (videoUrl : Option String) (downloadOk : Bool)
deriving Repr, DecidableEq

/-- Observable events of the tail of `main` after job submission. -/
inductive DuomiEv where
  | sleep10
  | download (url : String)
  | moveImage (picName : String)
  | moveJson
deriving Repr, DecidableEq

/-- How the polling loop exited: by handling a terminal task status
(the branch ending in the image-move block and `break`), or through an
`except` clause (which sets failure and breaks immediately). -/
inductive LoopExit where
  | terminal (success : Bool)
  | exception
deriving Repr, DecidableEq

/-- The polling loop: consumes steps until a `break`; `none` means the
observed steps ran out with the loop still polling. -/
def pollLoop : List PollStep → Option (LoopExit × List DuomiEv)
  | [] => none
  | step :: rest =>
    match step with
    | .exc _ => some (.exception, [])
    | .badCode _ =>
      (pollLoop rest).map (fun r => (r.1, .sleep10 :: r.2))
    | .task taskStatus videoUrl downloadOk =>
      if taskStatus = "succeed" then
        match videoUrl with
        | none => (pollLoop rest).map (fun r => (r.1, .sleep10 :: r.2))
        | some u =>
          if downloadOk then some (.terminal true, [.download u])
          else some (.exception, [.download u])
      else if taskStatus = "failed" ∨ taskStatus = "canceled" then
        some (.terminal false, [])
      else
        (pollLoop rest).map (fun r => (r.1, .sleep10 :: r.2))

/-- Result of the post-submission part of `main`: the logged status and
the event trace (`none` when the loop never exits on the observed steps). -/
structure RunResult where
  success : Bool
  events : List DuomiEv
deriving Repr, DecidableEq

/-- The image-move block executed before `break` when a terminal status is
handled: the image named `pic_name` is moved from img/ready to
img/generated when it exists there. -/
def imageMoveEvents (picName : Option String) (picInReady : Bool) : List DuomiEv :=
  match picName with
  | some n => if picInReady then [.moveImage n] else []
  | none => []

/-- The tail of `generate_video_duomi.main` from the first poll on:
run the polling loop; on a terminal-status `break` the image-move block
runs first; after the loop (on every exit) the prompt JSON is moved to
out/prompt_json/used. -/
def duomiRun (steps : List PollStep) (picName : Option String)
    (picInReady : Bool) : Option RunResult :=
  (pollLoop steps).map (fun r =>
    match r.1 with
    | .terminal success =>
      { success := success,
        events := r.2 ++ imageMoveEvents picName picInReady ++ [.moveJson] }
    | .exception =>
      { success := false, events := r.2 ++ [.moveJson] })

/-- Whether a Duomi task status is terminal. -/
def isTerminalStatus (s : String) : Bool :=
  s = "succeed" ∨ s = "failed" ∨ s = "canceled"

/-- Whether some observed poll step carries a terminal task status. -/
def reachesTerminal (steps : List PollStep) : Bool :=
  steps.any (fun st =>
    match st with
    | .task s _ _ => isTerminalStatus s
    | _ => false)

end Duomi

namespace ORouter

/-! ### src/scripts/openrouter_base.py, `OpenRouterClient.generate_content` -/

/-- The `GenerationResult` dataclass (minus `response_time`). -/
structure GenerationResult where
  success : Bool
  content : Option String := none
  error : Option String := none
  apiSource : Option String := none
  modelUsed : Option String := none
deriving Repr, DecidableEq

/-- Client configuration: `use_fallback`, whether a Gemini client was
initialised, `max_retries`, and the effective OpenRouter model name. -/
structure ClientCfg where
  useFallback : Bool
  geminiClient : Bool
  maxRetries : Nat := 3
  openrouterModel : String := "google/gemini-2.5-flash"
deriving Repr

/-- Python `needle in hay` on strings. -/
def strContains (hay needle : String) : Bool :=
  containsSub needle.toList hay.toList

/-- Outcome of one `_call_openrouter_api` call: a returned
`Optional[str]` (`none` = returned `None`) or a raised exception. -/
def ORAttempt := Except String (Option String)

/-- Python truthiness of an `Optional[str]` (`if result:`). -/
def optStrTruthy : Option String → Bool
  | none => false
  | some s => s != ""

/-- Outcome of `_call_gemini_api`: a returned value or a raised
exception. -/
def GemCall := Except String (Option String)

/-- The OpenRouter retry loop of `generate_content`
(`for attempt in range(self.max_retries)`), returning the first truthy
content together with the running `last_error` (set only by the `except`
branch). -/
def orRetryLoop (attempts : Nat → ORAttempt) :
    Nat → Nat → Option String → Option String × Option String
  | _, 0, lastError => (none, lastError)
  | i, fuel + 1, lastError =>
    match attempts i with
    | .ok r => if optStrTruthy r then (r, lastError)
               else orRetryLoop attempts (i + 1) fuel lastError
    | .error e => orRetryLoop attempts (i + 1) fuel (some e)

/-- Whether an OpenRouter attempt is unsuccessful (returned a falsy
value, or raised). -/
def orAttemptFails (a : ORAttempt) : Bool :=
  match a with
  | .ok r => !optStrTruthy r
  | .error _ => true

/-- The `last_error` value after the attempts `i, …, i+fuel-1`: only the
`except` branch updates it (an attempt that merely returns a falsy value
leaves it unchanged). -/
def orLastErr (attempts : Nat → ORAttempt) :
    Nat → Nat → Option String → Option String
  | _, 0, lastError => lastError
  | i, fuel + 1, lastError =>
    orLastErr attempts (i + 1) fuel
      (match attempts i with
       | .ok _ => lastError
       | .error e => some e)

/-- The `api_source == "openrouter"` branch of `generate_content`:
retry loop, then Gemini fallback when enabled and available, then a
failure result carrying the last error. -/
def generateOpenrouter (cfg : ClientCfg) (modelArg : Option String)
    (attempts : Nat → ORAttempt) (gemini : GemCall) : GenerationResult :=
  match orRetryLoop attempts 0 cfg.maxRetries none with
  | (some content, _) =>
    { success := true, content := some content, apiSource := some "openrouter",
      modelUsed := some (modelArg.getD cfg.openrouterModel) }
  | (none, lastError) =>
    let fail : GenerationResult :=
      { success := false,
        error := some ("Failed after " ++ toString cfg.maxRetries ++
          " attempts. Last error: " ++ pyStrOfOpt lastError),
        apiSource := some "openrouter" }
    if cfg.useFallback ∧ cfg.geminiClient then
      match gemini with
      | .ok r =>
        if optStrTruthy r then
          { success := true, content := r, apiSource := some "gemini_fallback",
            modelUsed := some "gemini-2.5-flash" }
        else fail
      | .error _ => fail
    else fail

/-- `OpenRouterClient.generate_content` with both branches: for
`api_source = "gemini"` the direct Gemini call is `geminiDirect`; a raised
error whose text contains "503" falls back (when enabled) to the
OpenRouter branch; otherwise a failure result is returned.  Any other
`api_source` value takes the `else` (gemini) branch, as in the source. -/
def generateContent (cfg : ClientCfg) (modelArg : Option String)
    (attempts : Nat → ORAttempt) (geminiFallbackCall : GemCall)
    (geminiDirect : GemCall) (apiSource : String) : GenerationResult :=
  if apiSource = "openrouter" then
    generateOpenrouter cfg modelArg attempts geminiFallbackCall
  else
    if !cfg.geminiClient then
      { success := false, error := some "Gemini client not available",
        apiSource := some "gemini" }
    else
      match geminiDirect with
      | .ok r =>
        { success := true, content := r, apiSource := some "gemini",
          modelUsed := some (modelArg.getD "gemini-2.5-flash") }
      | .error e =>
        if strContains e "503" ∧ cfg.useFallback then
          generateOpenrouter cfg modelArg attempts geminiFallbackCall
        else
          { success := false, error := some e, apiSource := some "gemini" }

end ORouter

namespace Parse

/-! ### src/scripts/parse_image_and_generate_json.py -/

/-- Characters removed by the first substitution of `create_safe_filename`
(the regex class `[<>:"/\\|?*,.]`). -/
def unsafeChars : List Char :=
  ['<', '>', ':', '"', '/', '\\', '|', '?', '*', ',', '.']

/-- `re.sub(r'[<>:"/\\|?*,.]', '_', title)`: each unsafe character becomes
an underscore. -/
def subUnsafeChars (cs : List Char) : List Char :=
  cs.map (fun c => if unsafeChars.contains c then '_' else c)

/-- `re.sub(r'\s+', '_', s)`, by one pass that remembers whether the
previous character was whitespace: each maximal whitespace run becomes
one underscore (`Char.isWhitespace` models the regex class `\s`). -/
def subWsRunsAux (prevWs : Bool) : List Char → List Char
  | [] => []
  | c :: cs =>
    if c.isWhitespace then
      (if prevWs then [] else ['_']) ++ subWsRunsAux true cs
    else c :: subWsRunsAux false cs

/-- `re.sub(r'\s+', '_', s)`. -/
def subWsRuns (cs : List Char) : List Char :=
  subWsRunsAux false cs

/-- `re.sub(r'_+', '_', s)`, by one pass that remembers whether the
previous character was an underscore: each maximal underscore run
becomes one underscore. -/
def collapseURunsAux (prevU : Bool) : List Char → List Char
  | [] => []
  | c :: cs =>
    if c = '_' then
      (if prevU then [] else ['_']) ++ collapseURunsAux true cs
    else c :: collapseURunsAux false cs

/-- `re.sub(r'_+', '_', s)`. -/
def collapseUnderscoreRuns (cs : List Char) : List Char :=
  collapseURunsAux false cs

/-- Removal of trailing underscores (the trailing half of
`s.strip('_')`). -/
def stripTrailingUnderscores : List Char → List Char
  | [] => []
  | c :: cs =>
    match stripTrailingUnderscores cs with
    | [] => if c = '_' then [] else [c]
    | r => c :: r

/-- The value of `safe_title` just before the final truncation
`safe_title[:50]`: substitute unsafe characters, substitute whitespace
runs, collapse underscore runs, then `strip('_')`. -/
def createSafeStemUntruncated (title : List Char) : List Char :=
  stripTrailingUnderscores
    ((collapseUnderscoreRuns (subWsRuns (subUnsafeChars title))).dropWhile
      (fun c => c = '_'))

/-- The stem `ImageProcessor.create_safe_filename` computes before
appending the extension (`safe_title[:50]`). -/
def createSafeStem (title : List Char) : List Char :=
  (createSafeStemUntruncated title).take 50

/-- No two adjacent underscores. -/
def noDoubleUnderscore : List Char → Bool
  | [] => true
  | [_] => true
  | a :: b :: t => !(a = '_' && b = '_') && noDoubleUnderscore (b :: t)

/-- The first character, if any, is not an underscore. -/
def headNotU : List Char → Bool
  | [] => true
  | c :: _ => c != '_'

/-- The last character, if any, is not an underscore. -/
def lastNotU (l : List Char) : Bool :=
  match l.getLast? with
  | none => true
  | some c => c != '_'

/-- `ImageProcessor.create_safe_filename`. -/
def createSafeFilename (title : String) (extension : String) : String :=
  String.mk (createSafeStem title.toList) ++ extension

/-- The `ProcessingResult` dataclass (minus `processing_time`). -/
structure ProcessingResultM where
  success : Bool
  originalFilename : String
  uploadUrl : Option String := none
  jsonFilename : Option String := none
  downloadedFilename : Option String := none
  error : Option String := none
deriving Repr, DecidableEq

/-- `ImageProcessor._load_processed_images`: the original filenames of CSV
rows whose status column is `'success'` (`row.get('original_filename')`
can be `None`, hence the `Option`). -/
def loadProcessedImages (rows : List DB.CsvRow) : List (Option String) :=
  rows.filterMap (fun r =>
    if r.status = some "success" then some r.originalFilename else none)

/-- `ImageProcessor.is_already_processed`. -/
def isAlreadyProcessed (processed : List (Option String)) (filename : String) : Bool :=
  processed.contains (some filename)

/-- External outcomes of the pipeline steps of `process_single_image`:
the upload result url, the brief-description content, whether
`generate_video_json_with_openrouter` produced data, the wget-downloaded
size, and the wall-clock timestamp used for the generated filenames. -/
structure PipelineOutcome where
  uploadUrl : Option String := none
  briefContent : Option String := none
  promptOk : Bool := false
  downloadedSize : Option Nat := none
  ts : String := "20250101_000000_000"
deriving Repr

/-- Observable events of `process_single_image` /
`process_all_images`. -/
inductive PEv where
  | upload (name : String)
  | download (url : String)
  | logCsv (name : String)
  | moveProcessed (name : String)
  | sleep1
deriving Repr, DecidableEq

/-- The descriptive name used for the generated filenames: the fallback
`"Unknown_Image"` when the brief description failed or is empty, else
`create_safe_filename(content.strip(), "")` (`String.trim` models
Python `str.strip()`). -/
def descriptiveNameOf (briefContent : Option String) : String :=
  match briefContent with
  | none => "Unknown_Image"
  | some c => if c = "" then "Unknown_Image" else createSafeFilename c.trim ""

/-- `ImageProcessor.process_single_image` over the processed-set state:
returns the result, the new processed set, and the event trace.  A file
already in the processed set is skipped before any upload, download or
move; a successfully processed filename is appended to the set. -/
def processSingleImage (st : List (Option String)) (name : String)
    (o : PipelineOutcome) :
    ProcessingResultM × List (Option String) × List PEv :=
  if isAlreadyProcessed st name then
    ({ success := false, originalFilename := name,
       error := some "Already processed - skipped" }, st, [])
  else
    match o.uploadUrl with
    | none =>
      ({ success := false, originalFilename := name,
         error := some "Failed to upload image" }, st, [.upload name])
    | some url =>
      let descName := descriptiveNameOf o.briefContent
      if !o.promptOk then
        ({ success := false, originalFilename := name, uploadUrl := some url,
           error := some "Failed to generate video JSON description" }, st,
         [.upload name])
      else
        let jsonFilename := descName ++ "_" ++ o.ts ++ ".json"
        let imageFilename := descName ++ "_" ++ o.ts ++ pySuffix name
        match o.downloadedSize with
        | none =>
          ({ success := false, originalFilename := name, uploadUrl := some url,
             jsonFilename := some jsonFilename,
             error := some "Failed to download image" }, st,
           [.upload name, .download url])
        | some _ =>
          ({ success := true, originalFilename := name, uploadUrl := some url,
             jsonFilename := some jsonFilename,
             downloadedFilename := some imageFilename }, st ++ [some name],
           [.upload name, .download url, .logCsv name, .moveProcessed name])

/-- A directory entry of img/ready. -/
structure DirEntry where
  name : String
  isFile : Bool
deriving Repr, DecidableEq

/-- The image extensions accepted by `ImageProcessor.find_images`. -/
def findExtensions : List String :=
  [".png", ".jpg", ".jpeg", ".gif", ".bmp", ".webp"]

/-- Codepoint-lexicographic comparison of character lists (the string
order Python `sorted` uses on the path names). -/
def lexLe : List Char → List Char → Bool
  | [], _ => true
  | _ :: _, [] => false
  | a :: as, b :: bs => if a = b then lexLe as bs else decide (a < b)

/-- String comparison used by `sorted(image_files)`. -/
def strLe (a b : String) : Bool :=
  lexLe a.toList b.toList

/-- Insert into a sorted list (stable, as Python sort is). -/
def insertSorted (x : String) : List String → List String
  | [] => [x]
  | y :: ys => if strLe x y then x :: y :: ys else y :: insertSorted x ys

/-- Python `sorted` on a list of strings (insertion sort). -/
def pySorted : List String → List String
  | [] => []
  | x :: xs => insertSorted x (pySorted xs)

/-- Adjacent-pairs sortedness under `strLe`. -/
def chainLe : List String → Bool
  | [] => true
  | [_] => true
  | a :: b :: t => strLe a b && chainLe (b :: t)

/-- `ImageProcessor.find_images`: the plain files of the ready directory
with an accepted extension, in sorted order; empty when the directory
does not exist. -/
def findImages (readyExists : Bool) (entries : List DirEntry) : List String :=
  if !readyExists then []
  else
    pySorted ((entries.filter (fun e =>
        e.isFile && findExtensions.contains (toLowerStr (pySuffix e.name)))).map
      DirEntry.name)

/-- Python list slicing `l[:n]` for an integer `n` (negative `n` drops
`|n|` elements from the end). -/
def pySliceTo (l : List α) (n : Int) : List α :=
  if 0 ≤ n then l.take n.toNat else l.take (l.length - (-n).toNat)

/-- The `if limit:` truncation of `process_all_images`: the slice is
applied only when `limit` is truthy, i.e. non-None and nonzero. -/
def applyLimit (limit : Option Int) (l : List α) : List α :=
  match limit with
  | none => l
  | some n => if n ≠ 0 then pySliceTo l n else l

/-- Accumulated state of the `process_all_images` loop. -/
structure RunAcc where
  results : List ProcessingResultM := []
  processed : List (Option String)
  trace : List PEv := []
deriving Repr

/-- One iteration of the `process_all_images` loop: process the image,
then `time.sleep(1)`. -/
def processAllStep (oracle : String → PipelineOutcome) (acc : RunAcc)
    (name : String) : RunAcc :=
  let r := processSingleImage acc.processed name (oracle name)
  { results := acc.results ++ [r.1], processed := r.2.1,
    trace := acc.trace ++ r.2.2 ++ [.sleep1] }

/-- `ImageProcessor.process_all_images`: find the images, apply the
truthy-limit truncation, then process strictly sequentially with a
1-second sleep after each image. -/
def processAllImages (readyExists : Bool) (entries : List DirEntry)
    (limit : Option Int) (st0 : List (Option String))
    (oracle : String → PipelineOutcome) : RunAcc :=
  (applyLimit limit (findImages readyExists entries)).foldl
    (processAllStep oracle) { processed := st0 }

end Parse

/-! ## Theorems -/

/-- C2, counterexample: running `get_or_create_legacy_image_id` on an
empty images table inserts a row whose status is `'legacy'`, which is not
one of the five values pending/uploading/success/failed/completed claimed
for the images state machine. -/
theorem c2_images_status_counterexample :
    ((DB.getOrCreateLegacyImageId {}).1.rows.map DB.ImagesRow.status) = ["legacy"] ∧
    "legacy" ∉ DB.imageStatusSet := by
  exact ⟨rfl, by decide⟩

/-- C2, amended: the statuses the codebase's literal write sites store in
`images.status` are pending, success, failed, completed, legacy and
uploaded — the membership set excludes `'uploading'`, which is never
written; `migrate_existing_data` additionally copies the CSV status
verbatim, substituting `'unknown'` when the column is absent; and a
newly created images row that is not given a status has the schema
default `'pending'`. -/
theorem c2_images_status_amended :
    (∀ w : DB.ImageStatusWrite, (∀ row, w ≠ DB.ImageStatusWrite.migrateCsv row) →
        DB.writtenImageStatus w ∈ DB.imageStatusSetAmended) ∧
    (∀ row : DB.CsvRow, DB.writtenImageStatus (DB.ImageStatusWrite.migrateCsv row) =
        row.status.getD "unknown") ∧
    (∀ (t : DB.ImagesTable) (fn : String) (dn uu ufn : Option String),
        (DB.insertImagesRaw t fn none dn uu ufn).1.rows =
          t.rows ++ [{ id := t.nextId, originalFilename := fn, status := "pending",
                       errorMessage := none, descriptiveName := dn,
                       uploadUrl := uu, uploadedFilename := ufn }]) ∧
    "uploading" ∉ DB.imageStatusSetAmended := by
  refine ⟨?_, fun row => rfl, fun t fn dn uu ufn => rfl, by decide⟩
  intro w hw
  cases w
  case migrateCsv row => exact absurd rfl (hw row)
  case fixImageUploadingUpdate ok => cases ok <;> decide
  case fixImageUploadingReupload ok => cases ok <;> decide
  case tempProcessUpdate ok => cases ok <;> decide
  all_goals decide

/-- C2, amended, witness: the legacy-placeholder write site stores a
status inside the amended vocabulary. -/
theorem c2_images_status_amended_witness :
    DB.writtenImageStatus DB.ImageStatusWrite.legacyPlaceholder ∈
      DB.imageStatusSetAmended :=
  c2_images_status_amended.1 DB.ImageStatusWrite.legacyPlaceholder
    (fun _ h => by cases h)

/-- C3: every status value the codebase writes into the `videos` table is
one of pending, generating, completed, failed, and the schema default for
a row created without a status is `'pending'`. -/
theorem c3_videos_status_vocabulary :
    (∀ w : DB.VideoStatusWrite, DB.writtenVideoStatus w ∈ DB.videoStatusSet) ∧
    DB.videosStatusDefault = "pending" := by
  refine ⟨?_, rfl⟩
  intro w
  cases w
  case convertUsedUpdate le =>
    cases le with
    | none => decide
    | some ls =>
      simp only [DB.writtenVideoStatus, DB.convertUsedVideoStatus,
        DB.videoStatusFromLog]
      split <;> decide
  case convertUsedInsert le =>
    cases le with
    | none => decide
    | some ls =>
      simp only [DB.writtenVideoStatus, DB.convertUsedVideoStatus,
        DB.videoStatusFromLog]
      split <;> decide
  all_goals decide

/-- C9: `insert_image_record` and `insert_video_record` list the `status`
column explicitly in their INSERTs, so a `None` status is bound as NULL,
violates the NOT NULL constraint, raises an integrity error and leaves
the table unchanged; on success the inserted row carries exactly the
caller's status, never the schema default. -/
theorem c9_insert_null_status_rejected :
    (∀ (t : DB.ImagesTable) (rec : DB.ImageRecord), rec.status = none →
        (DB.insertImageRecord t rec).1 = t ∧
        ∃ e, (DB.insertImageRecord t rec).2 = Except.error e) ∧
    (∀ (t : DB.VideosTable) (rec : DB.VideoRecord), rec.status = none →
        (DB.insertVideoRecord t rec).1 = t ∧
        ∃ e, (DB.insertVideoRecord t rec).2 = Except.error e) ∧
    (∀ (t : DB.ImagesTable) (rec : DB.ImageRecord) (fn s : String),
        rec.originalFilename = some fn → rec.status = some s →
        (DB.insertImageRecord t rec).1.rows =
          t.rows ++ [{ id := t.nextId, originalFilename := fn, status := s,
                       errorMessage := rec.errorMessage,
                       descriptiveName := rec.descriptiveName,
                       uploadUrl := rec.uploadUrl,
                       uploadedFilename := rec.uploadedFilename }]) ∧
    (∀ (t : DB.VideosTable) (rec : DB.VideoRecord) (i : Nat) (s : String),
        rec.imageId = some i → rec.status = some s →
        (DB.insertVideoRecord t rec).1.rows =
          t.rows ++ [{ id := t.nextId, imageId := i, status := s,
                       errorMessage := rec.errorMessage }]) := by
  refine ⟨?_, ?_, ?_, ?_⟩
  · intro t rec h
    cases hf : rec.originalFilename with
    | none =>
      exact ⟨by simp [DB.insertImageRecord, hf],
        "IntegrityError: NOT NULL constraint failed: images.original_filename",
        by simp [DB.insertImageRecord, hf]⟩
    | some fn =>
      exact ⟨by simp [DB.insertImageRecord, hf, h],
        "IntegrityError: NOT NULL constraint failed: images.status",
        by simp [DB.insertImageRecord, hf, h]⟩
  · intro t rec h
    cases hf : rec.imageId with
    | none =>
      exact ⟨by simp [DB.insertVideoRecord, hf],
        "IntegrityError: NOT NULL constraint failed: videos.image_id",
        by simp [DB.insertVideoRecord, hf]⟩
    | some i =>
      exact ⟨by simp [DB.insertVideoRecord, hf, h],
        "IntegrityError: NOT NULL constraint failed: videos.status",
        by simp [DB.insertVideoRecord, hf, h]⟩
  · intro t rec fn s hfn hs
    simp [DB.insertImageRecord, hfn, hs]
  · intro t rec i s hi hs
    simp [DB.insertVideoRecord, hi, hs]

/-- C9, witness: inserting a record with a `None` status into an empty
images table raises and leaves the table empty, and inserting one with
status `'success'` stores exactly that status. -/
theorem c9_insert_null_status_rejected_witness :
    (DB.insertImageRecord {} { originalFilename := some "a.jpg" }).1 = {} ∧
    (DB.insertImageRecord {}
        { originalFilename := some "a.jpg", status := some "success" }).1.rows =
      [{ id := 1, originalFilename := "a.jpg", status := "success" }] :=
  ⟨(c9_insert_null_status_rejected.1 {} { originalFilename := some "a.jpg" } rfl).1,
   c9_insert_null_status_rejected.2.2.1 {}
     { originalFilename := some "a.jpg", status := some "success" } "a.jpg" "success"
     rfl rfl⟩

/-- C4, counterexample: a poll that reaches the terminal Duomi status
`succeed` (with a video URL) whose download then raises lands in the
`except` clause, which breaks out of the loop WITHOUT the img/ready →
img/generated move, although the prompt JSON is still moved to used —
so reaching a terminal status does not always perform both moves. -/
theorem c4_terminal_moves_counterexample :
    Duomi.reachesTerminal [Duomi.PollStep.task "succeed" (some "http://v/u.mp4") false] =
      true ∧
    Duomi.duomiRun [Duomi.PollStep.task "succeed" (some "http://v/u.mp4") false]
        (some "x.jpg") true =
      some { success := false,
             events := [Duomi.DuomiEv.download "http://v/u.mp4",
                        Duomi.DuomiEv.moveJson] } ∧
    Duomi.DuomiEv.moveImage "x.jpg" ∉
      [Duomi.DuomiEv.download "http://v/u.mp4", Duomi.DuomiEv.moveJson] := by
  exact ⟨by decide, by decide, by decide⟩

/-- C4, amended: whenever the polling loop exits by handling a terminal
task status (`succeed` with a video URL and a successful download, or
`failed`/`canceled`), it appends the same move sequence in the success
and the failure case — the image named pic_name is moved from img/ready
to img/generated when it exists there, and afterwards the prompt JSON is
moved to out/prompt_json/used; when the loop instead exits through an
exception (a polling error or a failed download after `succeed`), only
the JSON move is performed; and a `succeed` poll without a video URL
keeps polling without any move. -/
theorem c4_terminal_handling_moves :
    (∀ (steps : List Duomi.PollStep) (picName : Option String)
       (picInReady success : Bool) (evs : List Duomi.DuomiEv),
       Duomi.pollLoop steps = some (Duomi.LoopExit.terminal success, evs) →
       Duomi.duomiRun steps picName picInReady =
         some { success := success,
                events := evs ++ Duomi.imageMoveEvents picName picInReady ++
                  [Duomi.DuomiEv.moveJson] }) ∧
    (∀ (steps : List Duomi.PollStep) (picName : Option String)
       (picInReady : Bool) (evs : List Duomi.DuomiEv),
       Duomi.pollLoop steps = some (Duomi.LoopExit.exception, evs) →
       Duomi.duomiRun steps picName picInReady =
         some { success := false, events := evs ++ [Duomi.DuomiEv.moveJson] }) ∧
    (∀ (rest : List Duomi.PollStep) (dl : Bool),
       Duomi.pollLoop (Duomi.PollStep.task "succeed" none dl :: rest) =
         (Duomi.pollLoop rest).map
           (fun r => (r.1, Duomi.DuomiEv.sleep10 :: r.2))) := by
  refine ⟨?_, ?_, ?_⟩
  · intro steps pn inReady succ evs h
    simp [Duomi.duomiRun, h]
  · intro steps pn inReady evs h
    simp [Duomi.duomiRun, h]
  · intro rest dl
    simp [Duomi.pollLoop]

/-- C4, amended, witness: a first poll with status `failed` performs the
image move (the image is present in img/ready) and then the JSON move. -/
theorem c4_terminal_handling_moves_witness :
    Duomi.duomiRun [Duomi.PollStep.task "failed" none true] (some "p.png") true =
      some { success := false,
             events := [Duomi.DuomiEv.moveImage "p.png", Duomi.DuomiEv.moveJson] } :=
  c4_terminal_handling_moves.1 [Duomi.PollStep.task "failed" none true]
    (some "p.png") true false [] (by decide)

/-! Helper lemmas for the `create_safe_filename` sanitiser. -/

theorem mem_subUnsafeChars_safe {c : Char} {l : List Char}
    (h : c ∈ Parse.subUnsafeChars l) : Parse.unsafeChars.contains c = false := by
  simp only [Parse.subUnsafeChars, List.mem_map] at h
  obtain ⟨a, -, ha⟩ := h
  by_cases hu : Parse.unsafeChars.contains a
  · rw [if_pos hu] at ha; subst ha; decide
  · rw [if_neg hu] at ha; subst ha; simpa using hu

theorem mem_subWsRunsAux : ∀ (l : List Char) (b : Bool) (c : Char),
    c ∈ Parse.subWsRunsAux b l → c = '_' ∨ (c ∈ l ∧ c.isWhitespace = false) := by
  intro l
  induction l with
  | nil => intro b c h; simp [Parse.subWsRunsAux] at h
  | cons a t ih =>
    intro b c h
    simp only [Parse.subWsRunsAux] at h
    by_cases hw : a.isWhitespace
    · rw [if_pos hw] at h
      rcases List.mem_append.mp h with h1 | h2
      · cases b with
        | true => simp at h1
        | false => simp at h1; exact Or.inl h1
      · rcases ih true c h2 with h3 | ⟨hm, hws⟩
        · exact Or.inl h3
        · exact Or.inr ⟨List.mem_cons_of_mem _ hm, hws⟩
    · rw [if_neg hw] at h
      rcases List.mem_cons.mp h with rfl | h2
      · exact Or.inr ⟨List.mem_cons_self _ _, by simpa using hw⟩
      · rcases ih false c h2 with h3 | ⟨hm, hws⟩
        · exact Or.inl h3
        · exact Or.inr ⟨List.mem_cons_of_mem _ hm, hws⟩

theorem mem_collapseURunsAux : ∀ (l : List Char) (b : Bool) (c : Char),
    c ∈ Parse.collapseURunsAux b l → c = '_' ∨ c ∈ l := by
  intro l
  induction l with
  | nil => intro b c h; simp [Parse.collapseURunsAux] at h
  | cons a t ih =>
    intro b c h
    simp only [Parse.collapseURunsAux] at h
    by_cases ha : a = '_'
    · rw [if_pos ha] at h
      rcases List.mem_append.mp h with h1 | h2
      · cases b with
        | true => simp at h1
        | false => simp at h1; exact Or.inl h1
      · rcases ih true c h2 with h3 | h3
        · exact Or.inl h3
        · exact Or.inr (List.mem_cons_of_mem _ h3)
    · rw [if_neg ha] at h
      rcases List.mem_cons.mp h with rfl | h2
      · exact Or.inr (List.mem_cons_self _ _)
      · rcases ih false c h2 with h3 | h3
        · exact Or.inl h3
        · exact Or.inr (List.mem_cons_of_mem _ h3)

theorem noDouble_cons_tail {a : Char} {rest : List Char}
    (h : Parse.noDoubleUnderscore (a :: rest) = true) :
    Parse.noDoubleUnderscore rest = true := by
  cases rest with
  | nil => rfl
  | cons b t =>
    simp only [Parse.noDoubleUnderscore, Bool.and_eq_true] at h
    exact h.2

theorem noDouble_cons_of (c : Char) (rest : List Char)
    (h1 : Parse.noDoubleUnderscore rest = true)
    (h2 : c = '_' → Parse.headNotU rest = true) :
    Parse.noDoubleUnderscore (c :: rest) = true := by
  cases rest with
  | nil => rfl
  | cons x xs =>
    simp only [Parse.noDoubleUnderscore, Bool.and_eq_true]
    refine ⟨?_, h1⟩
    by_cases hc : c = '_'
    · have := h2 hc
      simp only [Parse.headNotU, bne_iff_ne, ne_eq] at this
      simp [hc, this]
    · simp [hc]

theorem collapseURunsAux_spec : ∀ (l : List Char) (b : Bool),
    Parse.noDoubleUnderscore (Parse.collapseURunsAux b l) = true ∧
    (b = true → Parse.headNotU (Parse.collapseURunsAux b l) = true) := by
  intro l
  induction l with
  | nil => intro b; exact ⟨rfl, fun _ => rfl⟩
  | cons a t ih =>
    intro b
    simp only [Parse.collapseURunsAux]
    by_cases ha : a = '_'
    · rw [if_pos ha]
      cases b with
      | true => simpa using ih true
      | false =>
        refine ⟨?_, fun h => absurd h (by decide)⟩
        show Parse.noDoubleUnderscore ('_' :: Parse.collapseURunsAux true t) = true
        exact noDouble_cons_of _ _ (ih true).1 (fun _ => (ih true).2 rfl)
    · rw [if_neg ha]
      refine ⟨noDouble_cons_of _ _ (ih false).1 (fun hc => absurd hc ha), ?_⟩
      intro _
      simp [Parse.headNotU, ha]

theorem noDouble_append_left : ∀ (l₁ l₂ : List Char),
    Parse.noDoubleUnderscore (l₁ ++ l₂) = true →
    Parse.noDoubleUnderscore l₁ = true
  | [], _, _ => rfl
  | [_], _, _ => rfl
  | a :: b :: t, l₂, h => by
    simp only [List.cons_append, Parse.noDoubleUnderscore, Bool.and_eq_true] at h ⊢
    exact ⟨h.1, noDouble_append_left (b :: t) l₂ h.2⟩

theorem noDouble_append_right : ∀ (l₁ l₂ : List Char),
    Parse.noDoubleUnderscore (l₁ ++ l₂) = true →
    Parse.noDoubleUnderscore l₂ = true := by
  intro l₁
  induction l₁ with
  | nil => intro l₂ h; exact h
  | cons a t ih => intro l₂ h; exact ih l₂ (noDouble_cons_tail h)

theorem stripTrailing_append : ∀ l : List Char,
    ∃ t, l = Parse.stripTrailingUnderscores l ++ t
  | [] => ⟨[], rfl⟩
  | c :: cs => by
    obtain ⟨t, ht⟩ := stripTrailing_append cs
    cases h : Parse.stripTrailingUnderscores cs with
    | nil =>
      by_cases hc : c = '_'
      · exact ⟨c :: cs, by simp [Parse.stripTrailingUnderscores, h, hc]⟩
      · refine ⟨cs, ?_⟩
        simp [Parse.stripTrailingUnderscores, h, hc]
    | cons x xs =>
      refine ⟨t, ?_⟩
      rw [h] at ht
      simp only [Parse.stripTrailingUnderscores, h]
      rw [List.cons_append, ← ht]

theorem stripTrailing_lastNotU : ∀ l : List Char,
    Parse.lastNotU (Parse.stripTrailingUnderscores l) = true
  | [] => rfl
  | c :: cs => by
    have ih := stripTrailing_lastNotU cs
    cases h : Parse.stripTrailingUnderscores cs with
    | nil =>
      by_cases hc : c = '_'
      · simp [Parse.stripTrailingUnderscores, h, hc, Parse.lastNotU]
      · simp [Parse.stripTrailingUnderscores, h, hc, Parse.lastNotU, List.getLast?]
    | cons x xs =>
      rw [h] at ih
      simp only [Parse.stripTrailingUnderscores, h]
      simpa [Parse.lastNotU, List.getLast?_cons_cons] using ih

theorem headNotU_of_append {p t : List Char}
    (h : Parse.headNotU (p ++ t) = true) : Parse.headNotU p = true := by
  cases p with
  | nil => rfl
  | cons c cs => simpa [Parse.headNotU] using h

theorem headNotU_dropWhileU : ∀ l : List Char,
    Parse.headNotU (l.dropWhile (fun c => c = '_')) = true := by
  intro l
  induction l with
  | nil => rfl
  | cons c cs ih =>
    by_cases hc : c = '_'
    · simpa [List.dropWhile, hc] using ih
    · simp [List.dropWhile, hc, Parse.headNotU]

/-- C10, counterexample: on a title of 49 letters, a space and a letter,
`create_safe_filename` strips underscores before truncating, so the final
`[:50]` cut re-exposes a trailing underscore — the returned stem ends in
`'_'`, refuting the no-trailing-underscore part of the claim. -/
theorem c10_trailing_underscore_counterexample :
    (Parse.createSafeStem (List.replicate 49 'a' ++ [' ', 'b'])).getLast? =
      some '_' ∧
    Parse.lastNotU (Parse.createSafeStem (List.replicate 49 'a' ++ [' ', 'b'])) =
      false := by
  exact ⟨by decide, by decide⟩

/-- C10, amended: for every title, the stem of `create_safe_filename`
contains none of the characters `< > : " / \ | ? * , .` and no
whitespace, has no run of consecutive underscores, no leading underscore,
and is at most 50 characters long; the no-trailing-underscore property
holds for the value before the final `[:50]` truncation, but the
truncation can re-expose a trailing underscore. -/
theorem c10_create_safe_filename_sanitises :
    (∀ (title : List Char) (c : Char), c ∈ Parse.createSafeStem title →
        Parse.unsafeChars.contains c = false ∧ c.isWhitespace = false) ∧
    (∀ title, Parse.noDoubleUnderscore (Parse.createSafeStem title) = true) ∧
    (∀ title, Parse.headNotU (Parse.createSafeStem title) = true) ∧
    (∀ title, (Parse.createSafeStem title).length ≤ 50) ∧
    (∀ title, Parse.lastNotU (Parse.createSafeStemUntruncated title) = true) ∧
    (∀ title ext, Parse.createSafeFilename title ext =
        String.mk (Parse.createSafeStem title.toList) ++ ext) := by
  have hmem : ∀ (title : List Char) (c : Char), c ∈ Parse.createSafeStem title →
      c = '_' ∨ (c ∈ Parse.subUnsafeChars title ∧ c.isWhitespace = false) := by
    intro title c h
    have h1 : c ∈ Parse.createSafeStemUntruncated title := List.take_subset _ _ h
    obtain ⟨t, ht⟩ := stripTrailing_append
      ((Parse.collapseUnderscoreRuns (Parse.subWsRuns (Parse.subUnsafeChars title))).dropWhile
        (fun c => c = '_'))
    have h2 : c ∈ (Parse.collapseUnderscoreRuns
        (Parse.subWsRuns (Parse.subUnsafeChars title))).dropWhile (fun c => c = '_') := by
      rw [ht]
      exact List.mem_append_left _ h1
    have h3 : c ∈ Parse.collapseUnderscoreRuns (Parse.subWsRuns (Parse.subUnsafeChars title)) :=
      (List.dropWhile_sublist _).subset h2
    rcases mem_collapseURunsAux _ _ _ h3 with h4 | h4
    · exact Or.inl h4
    · rcases mem_subWsRunsAux _ _ _ h4 with h5 | h5
      · exact Or.inl h5
      · exact Or.inr h5
  refine ⟨?_, ?_, ?_, ?_, fun _ => stripTrailing_lastNotU _, fun _ _ => rfl⟩
  · intro title c h
    rcases hmem title c h with rfl | ⟨hm, hws⟩
    · exact ⟨by decide, by decide⟩
    · exact ⟨mem_subUnsafeChars_safe hm, hws⟩
  · intro title
    have hm : Parse.noDoubleUnderscore
        (Parse.collapseUnderscoreRuns (Parse.subWsRuns (Parse.subUnsafeChars title))) = true :=
      (collapseURunsAux_spec _ false).1
    have hdrop : Parse.noDoubleUnderscore
        ((Parse.collapseUnderscoreRuns (Parse.subWsRuns (Parse.subUnsafeChars title))).dropWhile
          (fun c => c = '_')) = true := by
      have happ := List.takeWhile_append_dropWhile (p := fun c => c = '_')
        (l := Parse.collapseUnderscoreRuns (Parse.subWsRuns (Parse.subUnsafeChars title)))
      have h0 : Parse.noDoubleUnderscore
          ((Parse.collapseUnderscoreRuns (Parse.subWsRuns (Parse.subUnsafeChars title))).takeWhile
              (fun c => c = '_') ++
            (Parse.collapseUnderscoreRuns (Parse.subWsRuns (Parse.subUnsafeChars title))).dropWhile
              (fun c => c = '_')) = true := by
        rw [happ]; exact hm
      exact noDouble_append_right _ _ h0
    obtain ⟨t, ht⟩ := stripTrailing_append
      ((Parse.collapseUnderscoreRuns (Parse.subWsRuns (Parse.subUnsafeChars title))).dropWhile
        (fun c => c = '_'))
    have hstrip : Parse.noDoubleUnderscore (Parse.createSafeStemUntruncated title) = true := by
      refine noDouble_append_left _ t ?_
      rw [Parse.createSafeStemUntruncated, ← ht]
      exact hdrop
    have happ := List.take_append_drop 50 (Parse.createSafeStemUntruncated title)
    have h1 : Parse.noDoubleUnderscore
        ((Parse.createSafeStemUntruncated title).take 50 ++
          (Parse.createSafeStemUntruncated title).drop 50) = true := by
      rw [happ]; exact hstrip
    exact noDouble_append_left _ _ h1
  · intro title
    have hdrop : Parse.headNotU
        ((Parse.collapseUnderscoreRuns (Parse.subWsRuns (Parse.subUnsafeChars title))).dropWhile
          (fun c => c = '_')) = true := headNotU_dropWhileU _
    obtain ⟨t, ht⟩ := stripTrailing_append
      ((Parse.collapseUnderscoreRuns (Parse.subWsRuns (Parse.subUnsafeChars title))).dropWhile
        (fun c => c = '_'))
    have hstrip : Parse.headNotU (Parse.createSafeStemUntruncated title) = true := by
      refine headNotU_of_append (t := t) ?_
      rw [Parse.createSafeStemUntruncated, ← ht]
      exact hdrop
    have happ := List.take_append_drop 50 (Parse.createSafeStemUntruncated title)
    have h1 : Parse.headNotU
        ((Parse.createSafeStemUntruncated title).take 50 ++
          (Parse.createSafeStemUntruncated title).drop 50) = true := by
      rw [happ]; exact hstrip
    exact headNotU_of_append h1
  · intro title
    exact List.length_take_le _ _

/-- C10, amended, witness: the character `a` of the sanitised stem of
`"a b"` is neither unsafe nor whitespace. -/
theorem c10_create_safe_filename_sanitises_witness :
    Parse.unsafeChars.contains 'a' = false ∧ 'a'.isWhitespace = false :=
  c10_create_safe_filename_sanitises.1 "a b".toList 'a' (by decide)

/-! Helper lemmas for `process_single_image` / `process_all_images`. -/

theorem processSingleImage_origName (st : List (Option String)) (name : String)
    (o : Parse.PipelineOutcome) :
    (Parse.processSingleImage st name o).1.originalFilename = name := by
  unfold Parse.processSingleImage
  split
  · rfl
  · split
    · rfl
    · split
      · rfl
      · split <;> rfl

theorem processSingleImage_no_sleep (st : List (Option String)) (name : String)
    (o : Parse.PipelineOutcome) :
    Parse.PEv.sleep1 ∉ (Parse.processSingleImage st name o).2.2 := by
  unfold Parse.processSingleImage
  split
  · simp
  · split
    · simp
    · split
      · simp
      · split <;> simp

theorem lexLe_total : ∀ x y : List Char,
    Parse.lexLe x y = true ∨ Parse.lexLe y x = true
  | [], _ => Or.inl rfl
  | _ :: _, [] => Or.inr rfl
  | a :: as, b :: bs => by
    by_cases hab : a = b
    · subst hab
      rcases lexLe_total as bs with h | h
      · exact Or.inl (by simpa [Parse.lexLe] using h)
      · exact Or.inr (by simpa [Parse.lexLe] using h)
    · rcases lt_trichotomy a b with h | h | h
      · exact Or.inl (by simp [Parse.lexLe, hab, h])
      · exact absurd h hab
      · exact Or.inr (by simp [Parse.lexLe, Ne.symm hab, h])

theorem strLe_total (a b : String) :
    Parse.strLe a b = true ∨ Parse.strLe b a = true :=
  lexLe_total a.toList b.toList

theorem chainLe_insertSorted : ∀ (l : List String) (x : String),
    Parse.chainLe l = true → Parse.chainLe (Parse.insertSorted x l) = true := by
  intro l
  induction l with
  | nil => intro x _; rfl
  | cons y ys ih =>
    intro x h
    by_cases hxy : Parse.strLe x y = true
    · simp only [Parse.insertSorted, if_pos hxy]
      simp only [Parse.chainLe, Bool.and_eq_true]
      exact ⟨hxy, h⟩
    · simp only [Parse.insertSorted, if_neg hxy]
      have hyx : Parse.strLe y x = true := (strLe_total x y).resolve_left hxy
      cases ys with
      | nil => simp [Parse.insertSorted, Parse.chainLe, hyx]
      | cons z zs =>
        simp only [Parse.chainLe, Bool.and_eq_true] at h
        obtain ⟨h1, h2⟩ := h
        have hins := ih x h2
        by_cases hxz : Parse.strLe x z = true
        · simp only [Parse.insertSorted, if_pos hxz] at hins ⊢
          simp only [Parse.chainLe, Bool.and_eq_true] at hins ⊢
          exact ⟨hyx, hins⟩
        · simp only [Parse.insertSorted, if_neg hxz] at hins ⊢
          simp only [Parse.chainLe, Bool.and_eq_true] at hins ⊢
          exact ⟨h1, hins⟩

theorem chainLe_pySorted : ∀ l : List String,
    Parse.chainLe (Parse.pySorted l) = true := by
  intro l
  induction l with
  | nil => rfl
  | cons x xs ih => exact chainLe_insertSorted _ x ih

theorem processAll_foldl_names (oracle : String → Parse.PipelineOutcome) :
    ∀ (l : List String) (acc : Parse.RunAcc),
    ((l.foldl (Parse.processAllStep oracle) acc).results).map
        Parse.ProcessingResultM.originalFilename =
      acc.results.map Parse.ProcessingResultM.originalFilename ++ l := by
  intro l
  induction l with
  | nil => intro acc; simp
  | cons x xs ih =>
    intro acc
    rw [List.foldl_cons, ih]
    simp [Parse.processAllStep, processSingleImage_origName]

theorem processAll_foldl_sleeps (oracle : String → Parse.PipelineOutcome) :
    ∀ (l : List String) (acc : Parse.RunAcc),
    ((l.foldl (Parse.processAllStep oracle) acc).trace).count Parse.PEv.sleep1 =
      acc.trace.count Parse.PEv.sleep1 + l.length := by
  intro l
  induction l with
  | nil => intro acc; simp
  | cons x xs ih =>
    intro acc
    rw [List.foldl_cons, ih]
    simp only [Parse.processAllStep, List.count_append, List.length_cons]
    have hz : ((Parse.processSingleImage acc.processed x (oracle x)).2.2).count
        Parse.PEv.sleep1 = 0 :=
      List.count_eq_zero.mpr (processSingleImage_no_sleep _ _ _)
    rw [hz]
    simp [List.count_cons]
    omega

/-- C7: `process_single_image` implements resume — an image whose
filename was loaded from a CSV row with status `'success'` (or added to
the processed set by a successful run earlier in the session) is skipped
with success=False and error "Already processed - skipped", with no
upload, download, file move or state change; a successful processing
appends the filename to the processed set, so processing the same
filename again in the run is skipped. -/
theorem c7_resume_skips_processed :
    (∀ (rows : List DB.CsvRow) (name : String) (o : Parse.PipelineOutcome),
        (∃ r ∈ rows, r.status = some "success" ∧ r.originalFilename = some name) →
        Parse.processSingleImage (Parse.loadProcessedImages rows) name o =
          ({ success := false, originalFilename := name,
             error := some "Already processed - skipped" },
           Parse.loadProcessedImages rows, [])) ∧
    (∀ st name o, Parse.isAlreadyProcessed st name = true →
        Parse.processSingleImage st name o =
          ({ success := false, originalFilename := name,
             error := some "Already processed - skipped" }, st, [])) ∧
    (∀ st name o, (Parse.processSingleImage st name o).1.success = true →
        (Parse.processSingleImage st name o).2.1 = st ++ [some name]) ∧
    (∀ st name o o2, (Parse.processSingleImage st name o).1.success = true →
        Parse.processSingleImage (Parse.processSingleImage st name o).2.1 name o2 =
          ({ success := false, originalFilename := name,
             error := some "Already processed - skipped" },
           (Parse.processSingleImage st name o).2.1, [])) := by
  have hskip : ∀ st name o, Parse.isAlreadyProcessed st name = true →
      Parse.processSingleImage st name o =
        ({ success := false, originalFilename := name,
           error := some "Already processed - skipped" }, st, []) := by
    intro st name o h
    simp [Parse.processSingleImage, h]
  have hsucc : ∀ st name o, (Parse.processSingleImage st name o).1.success = true →
      (Parse.processSingleImage st name o).2.1 = st ++ [some name] := by
    intro st name o h
    by_cases hp : Parse.isAlreadyProcessed st name
    · rw [hskip st name o hp] at h; simp at h
    · cases hu : o.uploadUrl with
      | none => simp [Parse.processSingleImage, hp, hu] at h
      | some url =>
        cases hk : o.promptOk with
        | false => simp [Parse.processSingleImage, hp, hu, hk] at h
        | true =>
          cases hd : o.downloadedSize with
          | none => simp [Parse.processSingleImage, hp, hu, hk, hd] at h
          | some n => simp [Parse.processSingleImage, hp, hu, hk, hd]
  refine ⟨?_, hskip, hsucc, ?_⟩
  · intro rows name o h
    obtain ⟨r, hr, hs, hf⟩ := h
    have hmem : (some name) ∈ Parse.loadProcessedImages rows := by
      refine List.mem_filterMap.mpr ⟨r, hr, ?_⟩
      simp [hs, hf]
    have hin : Parse.isAlreadyProcessed (Parse.loadProcessedImages rows) name = true := by
      simpa [Parse.isAlreadyProcessed, List.contains, List.elem_iff] using hmem
    exact hskip _ name o hin
  · intro st name o o2 h
    have h1 := hsucc st name o h
    rw [h1]
    refine hskip _ name o2 ?_
    simp [Parse.isAlreadyProcessed, List.contains, List.elem_iff]

/-- C7, witness: a filename recorded as `'success'` in the CSV log is
skipped without any event. -/
theorem c7_resume_skips_processed_witness :
    Parse.processSingleImage
        (Parse.loadProcessedImages
          [{ originalFilename := some "a.jpg", status := some "success" }])
        "a.jpg" {} =
      ({ success := false, originalFilename := "a.jpg",
         error := some "Already processed - skipped" },
       Parse.loadProcessedImages
         [{ originalFilename := some "a.jpg", status := some "success" }], []) :=
  c7_resume_skips_processed.1
    [{ originalFilename := some "a.jpg", status := some "success" }] "a.jpg" {}
    ⟨{ originalFilename := some "a.jpg", status := some "success" },
      by decide, rfl, rfl⟩

/-- C8, counterexample: with the numeric limit `0` and one image in the
ready directory, `process_all_images` processes that image (`if limit:`
is false for `0`, so the slice is skipped and ALL images are processed),
although the claim requires it to process exactly the first 0 images,
i.e. none. -/
theorem c8_limit_zero_counterexample :
    (Parse.processAllImages true [{ name := "a.jpg", isFile := true }] (some 0) []
        (fun _ => {})).results.map Parse.ProcessingResultM.originalFilename =
      ["a.jpg"] := by
  decide

/-- C8, amended: `process_all_images` is strictly sequential — it
processes exactly the images `applyLimit` keeps of the sorted
`find_images` list, one at a time and in that order (one
ProcessingResult per image, in order), with one `time.sleep(1)` after
each image and no sleep inside the per-image processing; the sorted list
satisfies the string order; and when a POSITIVE numeric limit is given
exactly the first `limit` images are kept, whereas the falsy limit `0`
disables the truncation. -/
theorem c8_sequential_processing :
    (∀ readyExists entries limit st0 oracle,
        (Parse.processAllImages readyExists entries limit st0 oracle).results.map
            Parse.ProcessingResultM.originalFilename =
          Parse.applyLimit limit (Parse.findImages readyExists entries)) ∧
    (∀ (n : Int) (l : List String), 0 < n →
        Parse.applyLimit (some n) l = l.take n.toNat) ∧
    (∀ readyExists entries,
        Parse.chainLe (Parse.findImages readyExists entries) = true) ∧
    (∀ readyExists entries limit st0 oracle,
        (Parse.processAllImages readyExists entries limit st0 oracle).trace.count
            Parse.PEv.sleep1 =
          (Parse.applyLimit limit (Parse.findImages readyExists entries)).length) ∧
    (∀ st name o, Parse.PEv.sleep1 ∉ (Parse.processSingleImage st name o).2.2) := by
  refine ⟨?_, ?_, ?_, ?_, processSingleImage_no_sleep⟩
  · intro re entries limit st0 oracle
    unfold Parse.processAllImages
    rw [processAll_foldl_names]
    rfl
  · intro n l h
    have hne : n ≠ 0 := by omega
    simp [Parse.applyLimit, Parse.pySliceTo, hne, le_of_lt h]
  · intro re entries
    unfold Parse.findImages
    cases re with
    | false => rfl
    | true => simpa using chainLe_pySorted _
  · intro re entries limit st0 oracle
    unfold Parse.processAllImages
    rw [processAll_foldl_sleeps]
    simp

/-- C8, amended, witness: a positive limit keeps exactly the first
`limit` images of the sorted list. -/
theorem c8_sequential_processing_witness :
    Parse.applyLimit (some 1) ["a.jpg", "b.jpg"] = ["a.jpg"] :=
  c8_sequential_processing.2.1 1 ["a.jpg", "b.jpg"] (by decide)

/-! Helper lemmas for the `upload_image` retry loop. -/

theorem uploadLoop_all_fail (cfg : ImageUploader.UploaderCfg)
    (attempts : Nat → Except String ImageUploader.UploadResult) :
    ∀ (fuel i : Nat) (lastError : Option String),
    (∀ j, j < fuel → ImageUploader.succeedsAttempt (attempts (i + j)) = false) →
    ImageUploader.uploadLoop cfg attempts i fuel lastError =
      ({ success := false, url := .null,
         error := some (ImageUploader.failAfterMsg cfg.maxRetries
           (ImageUploader.lastErrAfter attempts i fuel lastError)) },
       ImageUploader.allFailTrace cfg.retryDelay i fuel) := by
  intro fuel
  induction fuel with
  | zero => intro i last _; rfl
  | succ f ih =>
    intro i last h
    have h0 : ImageUploader.succeedsAttempt (attempts i) = false := by
      simpa using h 0 (Nat.succ_pos f)
    have hrest : ∀ j, j < f →
        ImageUploader.succeedsAttempt (attempts (i + 1 + j)) = false := by
      intro j hj
      rw [show i + 1 + j = i + (j + 1) from by omega]
      exact h (j + 1) (by omega)
    cases ha : attempts i with
    | ok r =>
      have hr : r.success = false := by
        simpa [ImageUploader.succeedsAttempt, ha] using h0
      simp only [ImageUploader.uploadLoop, ha, hr]
      rw [ih (i + 1) r.error hrest]
      cases f with
      | zero =>
        simp [ImageUploader.allFailTrace, ImageUploader.lastErrAfter,
          ImageUploader.attemptError, ha]
      | succ f2 =>
        simp [ImageUploader.allFailTrace, ImageUploader.lastErrAfter,
          ImageUploader.attemptError, ha]
    | error e =>
      simp only [ImageUploader.uploadLoop, ha]
      rw [ih (i + 1) (some e) hrest]
      cases f with
      | zero =>
        simp [ImageUploader.allFailTrace, ImageUploader.lastErrAfter,
          ImageUploader.attemptError, ha]
      | succ f2 =>
        simp [ImageUploader.allFailTrace, ImageUploader.lastErrAfter,
          ImageUploader.attemptError, ha]

theorem uploadLoop_first_success (cfg : ImageUploader.UploaderCfg)
    (attempts : Nat → Except String ImageUploader.UploadResult) :
    ∀ (k i fuel : Nat) (lastError : Option String)
      (r : ImageUploader.UploadResult),
    k < fuel →
    (∀ j, j < k → ImageUploader.succeedsAttempt (attempts (i + j)) = false) →
    attempts (i + k) = Except.ok r → r.success = true →
    ImageUploader.uploadLoop cfg attempts i fuel lastError =
      (r, ImageUploader.succTrace cfg.retryDelay i k) := by
  intro k
  induction k with
  | zero =>
    intro i fuel last r hk _ ha hs
    cases fuel with
    | zero => omega
    | succ f =>
      have ha2 : attempts i = Except.ok r := ha
      simp [ImageUploader.uploadLoop, ha2, hs, ImageUploader.succTrace]
  | succ k ih =>
    intro i fuel last r hk hfail ha hs
    cases fuel with
    | zero => omega
    | succ f =>
      have h0 : ImageUploader.succeedsAttempt (attempts i) = false := by
        simpa using hfail 0 (by omega)
      have harg : attempts (i + 1 + k) = Except.ok r := by
        rw [show i + 1 + k = i + (k + 1) from by omega]
        exact ha
      have hfail2 : ∀ j, j < k →
          ImageUploader.succeedsAttempt (attempts (i + 1 + j)) = false := by
        intro j hj
        rw [show i + 1 + j = i + (j + 1) from by omega]
        exact hfail (j + 1) (by omega)
      have hkf : k < f := by omega
      have hf0 : ¬(f = 0) := by omega
      cases haa : attempts i with
      | ok r0 =>
        have hr0 : r0.success = false := by
          simpa [ImageUploader.succeedsAttempt, haa] using h0
        simp only [ImageUploader.uploadLoop, haa, hr0]
        rw [ih (i + 1) f r0.error r hkf hfail2 harg hs]
        simp [ImageUploader.succTrace, hf0]
      | error e =>
        simp only [ImageUploader.uploadLoop, haa]
        rw [ih (i + 1) f (some e) r hkf hfail2 harg hs]
        simp [ImageUploader.succTrace, hf0]

theorem uploadLoop_calls_le (cfg : ImageUploader.UploaderCfg)
    (attempts : Nat → Except String ImageUploader.UploadResult) :
    ∀ (fuel i : Nat) (lastError : Option String),
    ((ImageUploader.uploadLoop cfg attempts i fuel lastError).2.countP
        (fun e => match e with
          | ImageUploader.UpEv.call _ => true
          | _ => false)) ≤ fuel := by
  intro fuel
  induction fuel with
  | zero => intro i last; simp [ImageUploader.uploadLoop]
  | succ f ih =>
    intro i last
    cases ha : attempts i with
    | ok r =>
      cases hr : r.success with
      | true => simp [ImageUploader.uploadLoop, ha, hr, List.countP_cons]
      | false =>
        simp only [ImageUploader.uploadLoop, ha, hr, Bool.false_eq_true, if_false]
        cases f with
        | zero => simp [ImageUploader.uploadLoop, List.countP_cons]
        | succ f2 =>
          have := ih (i + 1) r.error
          simpa [List.countP_cons, List.countP_append] using this
    | error e =>
      simp only [ImageUploader.uploadLoop, ha]
      cases f with
      | zero => simp [ImageUploader.uploadLoop, List.countP_cons]
      | succ f2 =>
        have := ih (i + 1) (some e)
        simpa [List.countP_cons, List.countP_append] using this

/-- C1: for an existing file with a valid image extension,
`upload_image` is a bounded retry loop with fixed backoff — it calls
`_upload_single` at most `max_retries` times; if all `max_retries`
attempts are unsuccessful it returns success=False with the error
message reporting the number of attempts and the last error, its trace
being calls interleaved with exactly one `retry_delay`-second sleep
between consecutive attempts; if attempt `k` is the first success it
returns that `UploadResult` immediately after `k+1` calls; and the
constructor defaults are `max_retries = 3`, `retry_delay = 1.0`. -/
theorem c1_upload_image_bounded_retry :
    (∀ (cfg : ImageUploader.UploaderCfg) (path : String) attempts,
        ImageUploader.isValidImage path = true →
        (∀ j, j < cfg.maxRetries →
          ImageUploader.succeedsAttempt (attempts j) = false) →
        ImageUploader.uploadImage cfg true path attempts =
          ({ success := false, url := .null,
             error := some (ImageUploader.failAfterMsg cfg.maxRetries
               (ImageUploader.lastErrAfter attempts 0 cfg.maxRetries none)) },
           ImageUploader.allFailTrace cfg.retryDelay 0 cfg.maxRetries)) ∧
    (∀ (cfg : ImageUploader.UploaderCfg) (path : String) attempts (k : Nat)
        (r : ImageUploader.UploadResult),
        ImageUploader.isValidImage path = true →
        k < cfg.maxRetries →
        (∀ j, j < k → ImageUploader.succeedsAttempt (attempts j) = false) →
        attempts k = Except.ok r → r.success = true →
        ImageUploader.uploadImage cfg true path attempts =
          (r, ImageUploader.succTrace cfg.retryDelay 0 k)) ∧
    (∀ (cfg : ImageUploader.UploaderCfg) (path : String) attempts,
        ((ImageUploader.uploadImage cfg true path attempts).2.countP
            (fun e => match e with
              | ImageUploader.UpEv.call _ => true
              | _ => false)) ≤ cfg.maxRetries) ∧
    (({} : ImageUploader.UploaderCfg).maxRetries = 3 ∧
      ({} : ImageUploader.UploaderCfg).retryDelay = 1) := by
  refine ⟨?_, ?_, ?_, rfl, rfl⟩
  · intro cfg path attempts hv h
    simp only [ImageUploader.uploadImage, hv, Bool.not_true, Bool.false_eq_true,
      if_false]
    exact uploadLoop_all_fail cfg attempts cfg.maxRetries 0 none
      (fun j hj => by rw [Nat.zero_add]; exact h j hj)
  · intro cfg path attempts k r hv hk hfail ha hs
    simp only [ImageUploader.uploadImage, hv, Bool.not_true, Bool.false_eq_true,
      if_false]
    exact uploadLoop_first_success cfg attempts k 0 cfg.maxRetries none r hk
      (fun j hj => by rw [Nat.zero_add]; exact hfail j hj)
      (by rw [Nat.zero_add]; exact ha) hs
  · intro cfg path attempts
    unfold ImageUploader.uploadImage
    split
    · simp
    · split
      · simp
      · exact uploadLoop_calls_le cfg attempts cfg.maxRetries 0 none

/-- C1, witness: with the default configuration and three attempts that
all return a failed result with error "boom", `upload_image` on the
valid path "a.jpg" makes exactly three calls separated by 1-second
sleeps and reports the attempt count and last error. -/
theorem c1_upload_image_bounded_retry_witness :
    ImageUploader.uploadImage {} true "a.jpg"
        (fun _ => Except.ok { success := false, url := JVal.null, error := some "boom" }) =
      ({ success := false, url := JVal.null,
         error := some "Upload failed after 3 attempts. Last error: boom" },
       [ImageUploader.UpEv.call 0, ImageUploader.UpEv.sleep 1,
        ImageUploader.UpEv.call 1, ImageUploader.UpEv.sleep 1,
        ImageUploader.UpEv.call 2]) :=
  c1_upload_image_bounded_retry.1 {} "a.jpg"
    (fun _ => Except.ok { success := false, url := JVal.null, error := some "boom" })
    (by decide) (fun j _ => rfl)

/-! Helper lemmas for the result invariants of `upload_image`. -/

theorem uploadLoop_success_or_err (cfg : ImageUploader.UploaderCfg)
    (attempts : Nat → Except String ImageUploader.UploadResult) :
    ∀ (fuel i : Nat) (lastError : Option String),
    (ImageUploader.uploadLoop cfg attempts i fuel lastError).1.success = true ∨
    ((ImageUploader.uploadLoop cfg attempts i fuel lastError).1.error).isSome = true := by
  intro fuel
  induction fuel with
  | zero => intro i last; right; rfl
  | succ f ih =>
    intro i last
    cases ha : attempts i with
    | ok r =>
      cases hr : r.success with
      | true => left; simp [ImageUploader.uploadLoop, ha, hr]
      | false => simpa [ImageUploader.uploadLoop, ha, hr] using ih (i + 1) r.error
    | error e => simpa [ImageUploader.uploadLoop, ha] using ih (i + 1) (some e)

theorem uploadLoop_success_is_attempt (cfg : ImageUploader.UploaderCfg)
    (attempts : Nat → Except String ImageUploader.UploadResult) :
    ∀ (fuel i : Nat) (lastError : Option String),
    (ImageUploader.uploadLoop cfg attempts i fuel lastError).1.success = true →
    ∃ k r, attempts k = Except.ok r ∧
      (ImageUploader.uploadLoop cfg attempts i fuel lastError).1 = r := by
  intro fuel
  induction fuel with
  | zero => intro i last h; simp [ImageUploader.uploadLoop] at h
  | succ f ih =>
    intro i last h
    cases ha : attempts i with
    | ok r =>
      cases hr : r.success with
      | true => exact ⟨i, r, ha, by simp [ImageUploader.uploadLoop, ha, hr]⟩
      | false =>
        rw [show (ImageUploader.uploadLoop cfg attempts i (f + 1) last).1 =
            (ImageUploader.uploadLoop cfg attempts (i + 1) f r.error).1 from by
          simp [ImageUploader.uploadLoop, ha, hr]] at h ⊢
        exact ih (i + 1) r.error h
    | error e =>
      rw [show (ImageUploader.uploadLoop cfg attempts i (f + 1) last).1 =
          (ImageUploader.uploadLoop cfg attempts (i + 1) f (some e)).1 from by
        simp [ImageUploader.uploadLoop, ha]] at h ⊢
      exact ih (i + 1) (some e) h

/-- C5, counterexample: an ImageKit HTTP 200 response whose JSON body is
an empty object makes `_upload_single` return success=True with
`url=None` (`result_data.get('url')` is `None`), and `upload_image`
returns that result unchanged — so a successful result need not carry a
non-None url string. -/
theorem c5_success_null_url_counterexample :
    (ImageUploader.uploadImage {} true "a.jpg"
        (fun _ => Except.ok (ImageUploader.ikUploadSingle
          (ImageUploader.IKHttp.resp 200 "{}" (some (JVal.obj [])))))).1 =
      { success := true, url := JVal.null, error := none } ∧
    JVal.isStr JVal.null = false :=
  ⟨rfl, rfl⟩

/-- C5, amended: every `upload_image` result with success=False carries a
non-None error string (for any uploader and for the pre-upload failure
cases, whose exact results are also given); a result with success=True
is some attempt's `_upload_single` result, and for both implementations
the url of a successful single upload is exactly the value the service
response supplies — FreeImageHost: `response["image"]["url"]`, ImageKit:
`response.get('url')` for HTTP 200 (None when absent or null) and the
literal "Processing queued" for HTTP 202 — hence a non-None string
whenever the response supplies one, but not in general. -/
theorem c5_result_invariants :
    (∀ (cfg : ImageUploader.UploaderCfg) (fsExists : Bool) (path : String) attempts,
        (ImageUploader.uploadImage cfg fsExists path attempts).1.success = false →
        ((ImageUploader.uploadImage cfg fsExists path attempts).1.error).isSome = true) ∧
    (∀ (cfg : ImageUploader.UploaderCfg) (path : String) attempts,
        (ImageUploader.uploadImage cfg true path attempts).1.success = true →
        ∃ k r, attempts k = Except.ok r ∧
          (ImageUploader.uploadImage cfg true path attempts).1 = r) ∧
    (∀ (text : String) (j : JVal),
        (ImageUploader.fihUploadSingle
            (ImageUploader.FIHHttp.resp text (some j))).success = true →
        ∃ v, ImageUploader.fihSuccessUrl j = Except.ok v ∧
          (ImageUploader.fihUploadSingle
            (ImageUploader.FIHHttp.resp text (some j))).url = v) ∧
    (∀ (code : Nat) (text : String) (j : JVal),
        (ImageUploader.ikUploadSingle
            (ImageUploader.IKHttp.resp code text (some j))).success = true →
        (code = 200 ∧ ∃ u, j.pyGet "url" = Except.ok u ∧
            (ImageUploader.ikUploadSingle
              (ImageUploader.IKHttp.resp code text (some j))).url = u) ∨
        (code = 202 ∧
            (ImageUploader.ikUploadSingle
              (ImageUploader.IKHttp.resp code text (some j))).url =
              JVal.str "Processing queued")) ∧
    (∀ (cfg : ImageUploader.UploaderCfg) (path : String) attempts,
        ImageUploader.uploadImage cfg false path attempts =
          ({ success := false, url := .null,
             error := some ("Image file not found: " ++ path) }, [])) ∧
    (∀ (cfg : ImageUploader.UploaderCfg) (path : String) attempts,
        ImageUploader.isValidImage path = false →
        ImageUploader.uploadImage cfg true path attempts =
          ({ success := false, url := .null,
             error := some ("Invalid image file type: " ++ path) }, [])) := by
  refine ⟨?_, ?_, ?_, ?_, fun cfg path attempts => rfl, ?_⟩
  · intro cfg fsExists path attempts h
    cases fsExists with
    | false => simp [ImageUploader.uploadImage]
    | true =>
      cases hv : ImageUploader.isValidImage path with
      | false => simp [ImageUploader.uploadImage, hv]
      | true =>
        have hg : ImageUploader.uploadImage cfg true path attempts =
            ImageUploader.uploadLoop cfg attempts 0 cfg.maxRetries none := by
          simp [ImageUploader.uploadImage, hv]
        rw [hg] at h ⊢
        rcases uploadLoop_success_or_err cfg attempts cfg.maxRetries 0 none with hs | he
        · rw [hs] at h; cases h
        · exact he
  · intro cfg path attempts h
    cases hv : ImageUploader.isValidImage path with
    | false => simp [ImageUploader.uploadImage, hv] at h
    | true =>
      have hg : ImageUploader.uploadImage cfg true path attempts =
          ImageUploader.uploadLoop cfg attempts 0 cfg.maxRetries none := by
        simp [ImageUploader.uploadImage, hv]
      rw [hg] at h ⊢
      exact uploadLoop_success_is_attempt cfg attempts cfg.maxRetries 0 none h
  · intro text j hs
    cases h1 : j.pyGet "status_code" with
    | error e =>
      have hF : ImageUploader.fihHandle j = Except.error e := by
        unfold ImageUploader.fihHandle; simp [h1]
      simp [ImageUploader.fihUploadSingle, hF] at hs
    | ok sc =>
      cases h2 : j.pyGet "success" with
      | error e =>
        have hF : ImageUploader.fihHandle j = Except.error e := by
          unfold ImageUploader.fihHandle; simp [h1, h2]
        simp [ImageUploader.fihUploadSingle, hF] at hs
      | ok su =>
        by_cases hc : (sc.eqInt 200 && su.truthy) = true
        · cases h3 : ImageUploader.fihSuccessUrl j with
          | error e =>
            have hF : ImageUploader.fihHandle j = Except.error e := by
              unfold ImageUploader.fihHandle; simp [h1, h2, hc, h3]
            simp [ImageUploader.fihUploadSingle, hF] at hs
          | ok v =>
            have hF : ImageUploader.fihHandle j =
                Except.ok { success := true, url := v, error := none } := by
              unfold ImageUploader.fihHandle; simp [h1, h2, hc, h3]
            exact ⟨v, rfl, by simp [ImageUploader.fihUploadSingle, hF]⟩
        · exfalso
          cases h4 : j.pyGetD "error" (JVal.obj []) with
          | error e =>
            have hF : ImageUploader.fihHandle j = Except.error e := by
              unfold ImageUploader.fihHandle; simp [h1, h2, hc, h4]
            simp [ImageUploader.fihUploadSingle, hF] at hs
          | ok ei =>
            cases h5 : ei.pyGetD "message" (JVal.str "Unknown error") with
            | error e =>
              have hF : ImageUploader.fihHandle j = Except.error e := by
                unfold ImageUploader.fihHandle; simp [h1, h2, hc, h4, h5]
              simp [ImageUploader.fihUploadSingle, hF] at hs
            | ok msg =>
              cases h6 : ei.pyGetD "code" (JVal.str "N/A") with
              | error e =>
                have hF : ImageUploader.fihHandle j = Except.error e := by
                  unfold ImageUploader.fihHandle; simp [h1, h2, hc, h4, h5, h6]
                simp [ImageUploader.fihUploadSingle, hF] at hs
              | ok code =>
                have hF : ImageUploader.fihHandle j =
                    Except.ok
                      { success := false, url := .null,
                        error := some ("Upload failed: " ++ msg.pyStr ++
                          " (Code: " ++ code.pyStr ++ ")") } := by
                  unfold ImageUploader.fihHandle; simp [h1, h2, hc, h4, h5, h6]
                simp [ImageUploader.fihUploadSingle, hF] at hs
  · intro code text j hs
    by_cases h200 : code = 200
    · cases h1 : j.pyGet "url" with
      | error e =>
        have hF : ImageUploader.ikHandle code j = Except.error e := by
          unfold ImageUploader.ikHandle; simp [h200, h1]
        simp [ImageUploader.ikUploadSingle, hF] at hs
      | ok u =>
        have hF : ImageUploader.ikHandle code j =
            Except.ok { success := true, url := u, error := none } := by
          unfold ImageUploader.ikHandle; simp [h200, h1]
        exact Or.inl ⟨h200, u, rfl, by simp [ImageUploader.ikUploadSingle, hF]⟩
    · by_cases h202 : code = 202
      · have hF : ImageUploader.ikHandle code j =
            Except.ok
              { success := true, url := .str "Processing queued",
                error := some "File is being processed. Check back later." } := by
          unfold ImageUploader.ikHandle; simp [h200, h202]
        exact Or.inr ⟨h202, by simp [ImageUploader.ikUploadSingle, hF]⟩
      · exfalso
        cases h1 : j.pyGetD "message" (JVal.str "Unknown error") with
        | error e =>
          have hF : ImageUploader.ikHandle code j = Except.error e := by
            unfold ImageUploader.ikHandle; simp [h200, h202, h1]
          simp [ImageUploader.ikUploadSingle, hF] at hs
        | ok m =>
          have hF : ImageUploader.ikHandle code j =
              Except.ok
                { success := false, url := .null,
                  error := some ("Upload failed (" ++ toString code ++ "): " ++
                    m.pyStr) } := by
            unfold ImageUploader.ikHandle; simp [h200, h202, h1]
          simp [ImageUploader.ikUploadSingle, hF] at hs
  · intro cfg path attempts h
    simp [ImageUploader.uploadImage, h]

/-- C5, amended, witness: an invalid extension yields a failure result
with a non-None error. -/
theorem c5_result_invariants_witness :
    ImageUploader.uploadImage {} true "a.txt" (fun _ => Except.error "x") =
      ({ success := false, url := .null,
         error := some "Invalid image file type: a.txt" }, []) :=
  c5_result_invariants.2.2.2.2.2 {} "a.txt" (fun _ => Except.error "x") (by decide)

/-! Helper lemma for the OpenRouter retry loop. -/

theorem orRetryLoop_all_fail (attempts : Nat → ORouter.ORAttempt) :
    ∀ (fuel i : Nat) (lastError : Option String),
    (∀ j, j < fuel → ORouter.orAttemptFails (attempts (i + j)) = true) →
    ORouter.orRetryLoop attempts i fuel lastError =
      (none, ORouter.orLastErr attempts i fuel lastError) := by
  intro fuel
  induction fuel with
  | zero => intro i last _; rfl
  | succ f ih =>
    intro i last h
    have h0 : ORouter.orAttemptFails (attempts i) = true := by
      simpa using h 0 (Nat.succ_pos f)
    have hrest : ∀ j, j < f →
        ORouter.orAttemptFails (attempts (i + 1 + j)) = true := by
      intro j hj
      rw [show i + 1 + j = i + (j + 1) from by omega]
      exact h (j + 1) (by omega)
    cases ha : attempts i with
    | ok r =>
      have hr : ORouter.optStrTruthy r = false := by
        simpa [ORouter.orAttemptFails, ha] using h0
      simp only [ORouter.orRetryLoop, ha, hr, Bool.false_eq_true, if_false]
      rw [ih (i + 1) last hrest]
      simp [ORouter.orLastErr, ha]
    | error e =>
      simp only [ORouter.orRetryLoop, ha]
      rw [ih (i + 1) (some e) hrest]
      simp [ORouter.orLastErr, ha]

/-- C6: `generate_content` falls back between its two providers.  With
`api_source="openrouter"`, after all `max_retries` attempts fail and when
fallback is enabled and a Gemini client exists, a Gemini call returning
truthy content yields a success result with `api_source="gemini_fallback"`;
with `api_source="gemini"`, an error containing "503" (fallback enabled)
re-enters the OpenRouter path; and when no fallback applies, a failure
result carrying the last error is returned — the function is total, so
nothing is raised. -/
theorem c6_generate_content_fallback :
    (∀ (cfg : ORouter.ClientCfg) (modelArg : Option String) attempts
       (gd : ORouter.GemCall) (s : String),
       (∀ j, j < cfg.maxRetries → ORouter.orAttemptFails (attempts j) = true) →
       cfg.useFallback = true → cfg.geminiClient = true → s ≠ "" →
       ORouter.generateContent cfg modelArg attempts (Except.ok (some s)) gd
           "openrouter" =
         { success := true, content := some s,
           apiSource := some "gemini_fallback",
           modelUsed := some "gemini-2.5-flash" }) ∧
    (∀ (cfg : ORouter.ClientCfg) (modelArg : Option String) attempts
       (gfb : ORouter.GemCall) (e : String),
       cfg.geminiClient = true → ORouter.strContains e "503" = true →
       cfg.useFallback = true →
       ORouter.generateContent cfg modelArg attempts gfb (Except.error e)
           "gemini" =
         ORouter.generateOpenrouter cfg modelArg attempts gfb) ∧
    (∀ (cfg : ORouter.ClientCfg) (modelArg : Option String) attempts
       (gfb : ORouter.GemCall),
       (∀ j, j < cfg.maxRetries → ORouter.orAttemptFails (attempts j) = true) →
       (cfg.useFallback = true ∧ cfg.geminiClient = true → False) →
       ORouter.generateContent cfg modelArg attempts gfb gfb "openrouter" =
         { success := false,
           error := some ("Failed after " ++ toString cfg.maxRetries ++
             " attempts. Last error: " ++
             pyStrOfOpt (ORouter.orLastErr attempts 0 cfg.maxRetries none)),
           apiSource := some "openrouter" }) ∧
    (∀ (cfg : ORouter.ClientCfg) (modelArg : Option String) attempts
       (gfb : ORouter.GemCall) (e : String),
       cfg.geminiClient = true →
       (ORouter.strContains e "503" = true ∧ cfg.useFallback = true → False) →
       ORouter.generateContent cfg modelArg attempts gfb (Except.error e)
           "gemini" =
         { success := false, error := some e, apiSource := some "gemini" }) := by
  have hloop : ∀ (cfg : ORouter.ClientCfg) attempts,
      (∀ j, j < cfg.maxRetries → ORouter.orAttemptFails (attempts j) = true) →
      ORouter.orRetryLoop attempts 0 cfg.maxRetries none =
        (none, ORouter.orLastErr attempts 0 cfg.maxRetries none) := by
    intro cfg attempts h
    exact orRetryLoop_all_fail attempts cfg.maxRetries 0 none
      (fun j hj => by rw [Nat.zero_add]; exact h j hj)
  refine ⟨?_, ?_, ?_, ?_⟩
  · intro cfg modelArg attempts gd s hfail huf hgc hs
    have hg : ORouter.generateContent cfg modelArg attempts (Except.ok (some s)) gd
        "openrouter" =
        ORouter.generateOpenrouter cfg modelArg attempts (Except.ok (some s)) := by
      simp [ORouter.generateContent]
    rw [hg]
    unfold ORouter.generateOpenrouter
    rw [hloop cfg attempts hfail]
    simp [huf, hgc, ORouter.optStrTruthy, hs]
  · intro cfg modelArg attempts gfb e hgc h503 huf
    simp [ORouter.generateContent, hgc, h503, huf]
  · intro cfg modelArg attempts gfb hfail hnf
    have hg : ORouter.generateContent cfg modelArg attempts gfb gfb "openrouter" =
        ORouter.generateOpenrouter cfg modelArg attempts gfb := by
      simp [ORouter.generateContent]
    rw [hg]
    unfold ORouter.generateOpenrouter
    rw [hloop cfg attempts hfail]
    have hcond : ¬(cfg.useFallback = true ∧ cfg.geminiClient = true) := hnf
    simp only []
    rw [if_neg hcond]
  · intro cfg modelArg attempts gfb e hgc hno
    have hcond : ¬(ORouter.strContains e "503" = true ∧ cfg.useFallback = true) := hno
    simp [ORouter.generateContent, hgc, hcond]

/-- C6, witness: with fallback enabled, a Gemini client present and three
failing OpenRouter attempts, the Gemini fallback content "hi" is returned
with api_source "gemini_fallback". -/
theorem c6_generate_content_fallback_witness :
    ORouter.generateContent
        { useFallback := true, geminiClient := true } none
        (fun _ => Except.error "boom") (Except.ok (some "hi"))
        (Except.error "unused") "openrouter" =
      { success := true, content := some "hi",
        apiSource := some "gemini_fallback",
        modelUsed := some "gemini-2.5-flash" } :=
  c6_generate_content_fallback.1 { useFallback := true, geminiClient := true }
    none (fun _ => Except.error "boom") (Except.error "unused") "hi"
    (fun j _ => rfl) rfl rfl (by decide)

end LVB
